import Mathlib

/-!
The TrueTalk manager of the Titanic engine
(engines/titanic/true_talk/true_talk_manager.cpp).

A shallow embedding of `CTrueTalkManager`: its persistence format
(`save`, `load`, `saveStatics`, `loadStatics`, `saveNPC`, `loadNPC`), the
handling of the dialogue asset file (`clear`, `loadAssets`), the assembly of
the dialogue text (`readDialogueString`), the start of a dialogue
(`setDialogue`, `readDialogSound`, `triggerNPC`, `playSpeech`), the script
lookup (`getTalker`, `getNpcScript`, `getRoomScript`), the talker list
(`removeCompleted`, `preLoad`), the queries of the script engine
(`getStateValue`, `triggerAction`) and `setFlags`, followed by the
properties established for them.

Conventions of the embedding:

* `int` and `uint` values are mathematical integers (`Int`, `Nat`); where the
  source relies on 32-bit unsigned arithmetic the reduction modulo `2 ^ 32`
  is written out.
* A save file is the sequence of numbers it holds. Reading returns `none`
  when the code cannot continue (the stream is exhausted, or the behaviour
  of the source is undefined).
* Calls to collaborators (the NPC, the sound manager, the event layer) are
  recorded in the order they are made, as a list of `Effect`s; what the
  collaborators answer is taken from a `World`.
-/

namespace Titanic

/-! ## Save files -/

/-- Modelled from the spec: `SimpleFile`, the line-oriented serialization
primitive, is not part of the translated sources. A file is the sequence of
numbers it holds: the numbers still to be read when loading, the numbers
written so far when saving. -/
abbrev SimpleFile := List Int

/-- Modelled from the spec: `SimpleFile::readNumber` takes the next number of
the file. At the end of the file the read cannot be satisfied, which is a
fatal condition: the result is `none`. -/
def readNumber : SimpleFile → Option (Int × SimpleFile)
  | [] => none
  | x :: rest => some (x, rest)

/-- Modelled from the spec: `SimpleFile::writeNumber` appends one number to
the file. -/
def writeNumber (file : SimpleFile) (val : Int) : SimpleFile :=
  file ++ [val]

/-! ## Static fields -/

/-- The static members `_v1` .. `_v10` and the array `_v11[41]` of
`CTrueTalkManager`. The array is a list; the source declares it with 41
entries. -/
structure Statics where
  _v1 : Int
  _v2 : Int
  _v3 : Int
  _v4 : Bool
  _v5 : Bool
  _v6 : Int
  _v7 : Int
  _v8 : Bool
  _v9 : Int
  _v10 : Bool
  _v11 : List Int
deriving DecidableEq, Repr

/-- The loop `for (int idx = 0; idx < 41; ++idx) file->writeNumber(_v11[idx])`
of `saveStatics`, started at `idx`. -/
def saveFlags (v11 : List Int) (file : SimpleFile) (idx : Nat) : Nat → SimpleFile
  | 0 => file
  | n + 1 => saveFlags v11 (writeNumber file (v11.getD idx 0)) (idx + 1) n

/-- `CTrueTalkManager::saveStatics`. -/
def saveStatics (st : Statics) (file : SimpleFile) : SimpleFile :=
  let file := writeNumber file 10
  let file := writeNumber file st._v1
  let file := writeNumber file st._v2
  let file := writeNumber file st._v3
  let file := writeNumber file (if st._v4 then 1 else 0)
  let file := writeNumber file (if st._v5 then 1 else 0)
  let file := writeNumber file st._v6
  let file := writeNumber file st._v7
  let file := writeNumber file (if st._v8 then 1 else 0)
  let file := writeNumber file st._v9
  let file := writeNumber file (if st._v10 then 1 else 0)
  let file := writeNumber file 41
  saveFlags st._v11 file 0 41

/-- The loop `for (int idx = count; count > 10; --idx) file->readNumber();` of
`loadStatics`: the condition tests `count`, which the loop never changes; the
counter `idx` is only decremented. Each iteration reads one number. -/
def skipLegacy (count : Int) : Int → SimpleFile → Option SimpleFile
  | _, [] => if count > 10 then none else some []
  | idx, x :: rest => if count > 10 then skipLegacy count (idx - 1) rest else some (x :: rest)

/-- The loop of `loadStatics` that reads `count2` numbers and stores the
first 41 of them in `_v11`. -/
def loadFlags (count2 : Int) : Nat → List Int → SimpleFile → Option (List Int × SimpleFile)
  | idx, v11, [] => if (idx : Int) < count2 then none else some (v11, [])
  | idx, v11, v :: rest =>
    if (idx : Int) < count2 then
      loadFlags count2 (idx + 1) (if idx < 41 then v11.set idx v else v11) rest
    else some (v11, v :: rest)

/-- Reads one number with `readNumber` and hands it, with the rest of the
file, to the code that follows the read. -/
@[noinline] def readThen {α : Type} (file : SimpleFile) (k : Int → SimpleFile → Option α) :
    Option α :=
  match readNumber file with
  | none => none
  | some (x, rest) => k x rest

/-- `CTrueTalkManager::loadStatics`: the new static fields and the rest of
the file. The argument `st` holds the fields before the call; only the
entries of `_v11` that the loop does not write survive from it. -/
def loadStatics (st : Statics) (file : SimpleFile) : Option (Statics × SimpleFile) :=
  readThen file fun count file =>
  readThen file fun v1 file =>
  readThen file fun v2 file =>
  readThen file fun v3 file =>
  readThen file fun v4 file =>
  readThen file fun v5 file =>
  readThen file fun v6 file =>
  readThen file fun v7 file =>
  readThen file fun v8 file =>
  readThen file fun v9 file =>
  readThen file fun v10 file =>
  match skipLegacy count count file with
  | none => none
  | some file =>
  readThen file fun count2 file =>
  match loadFlags count2 0 st._v11 file with
  | none => none
  | some (v11, file) =>
  some ({ _v1 := v1, _v2 := v2, _v3 := v3, _v4 := v4 != 0,
          _v5 := v5 != 0, _v6 := v6, _v7 := v7, _v8 := v8 != 0,
          _v9 := v9, _v10 := v10 != 0, _v11 := v11 }, file)

/-! ## NPC scripts and the character blocks of a save file -/

/-- The macro `MKTAG_BE(a3,a2,a1,a0)`, that is
`(uint32)((a3) | ((a2) << 8) | ((a1) << 16) | ((a0) << 24))`. -/
def MKTAG_BE (a3 a2 a1 a0 : Nat) : Nat :=
  (a3 ||| (a2 <<< 8) ||| (a1 <<< 16) ||| (a0 <<< 24)) % 2 ^ 32

/-- The value `MKTAG_BE('U', 'R', 'A', 'H')`, as the number written to and
compared with the numbers of a save file. Both tags are below `2 ^ 31`, so
the comparison of an `int` with the `uint32` tag agrees with the comparison
of the integers. -/
def identURAH : Int := MKTAG_BE 'U'.toNat 'R'.toNat 'A'.toNat 'H'.toNat

/-- The value `MKTAG_BE('A', 'K', 'E', 'R')`. -/
def identAKER : Int := MKTAG_BE 'A'.toNat 'K'.toNat 'E'.toNat 'R'.toNat

/-- The NPC scripts held by the registry `_scripts`. The classes `TTscripts`
and `TTnpcScript` are not part of the translated file, so they are taken as
a parameter: `σ` is the state of the scripts, `getNpcScript` tells whether
the registry holds an NPC script for a character id, `load` is
`TTnpcScript::load` (it consumes numbers of the file and may change the
script), `save` gives the numbers `TTnpcScript::save` writes. -/
structure TTscripts (σ : Type) where
  getNpcScript : σ → Int → Bool
  load : σ → Int → SimpleFile → Option (σ × SimpleFile)
  save : σ → Int → List Int

/-- `CTrueTalkManager::saveNPC`. -/
def saveNPC {σ : Type} (scripts : TTscripts σ) (reg : σ) (file : SimpleFile) (charId : Int) :
    SimpleFile :=
  if scripts.getNpcScript reg charId then
    let file := file ++ scripts.save reg charId
    let file := writeNumber file identURAH
    writeNumber file identAKER
  else file

/-- `CTrueTalkManager::save`. -/
def save {σ : Type} (scripts : TTscripts σ) (reg : σ) (st : Statics) (file : SimpleFile) :
    SimpleFile :=
  let file := saveStatics st file
  let file := saveNPC scripts reg file 101
  let file := saveNPC scripts reg file 103
  let file := saveNPC scripts reg file 104
  let file := saveNPC scripts reg file 105
  let file := saveNPC scripts reg file 111
  let file := saveNPC scripts reg file 100
  let file := saveNPC scripts reg file 112
  let file := saveNPC scripts reg file 107
  writeNumber file 0

/-- `CTrueTalkManager::loadNPC`. -/
def loadNPC {σ : Type} (scripts : TTscripts σ) (reg : σ) (file : SimpleFile) (charId : Int) :
    Option (σ × SimpleFile) :=
  if scripts.getNpcScript reg charId then scripts.load reg charId file
  else some (reg, file)

/-- The inner loop of `load`,
`while (ident2 != MKTAG_BE('A','K','E','R')) { ident1 = ident2; ident2 = file->readNumber(); if (!ident1) break; }`,
entered with the current `ident2`: the rest of the file when the loop is
left. -/
def skipIdents : Int → SimpleFile → Option SimpleFile
  | ident2, [] => if ident2 ≠ identAKER then none else some []
  | ident2, x :: rest =>
    if ident2 ≠ identAKER then
      (if ident2 = 0 then some rest else skipIdents x rest)
    else some (x :: rest)

/-- The part of the body of the loop of `load` that follows `loadNPC`: reads
`ident1` and `ident2` and, when `ident1` is not the first tag, runs the inner
loop. The result is the file from which the next character id is read. -/
def readIdents (file : SimpleFile) : Option SimpleFile :=
  readThen file fun ident1 file =>
  readThen file fun ident2 file =>
  if ident1 ≠ identURAH then skipIdents ident2 file else some file

/-- The loop `while (charId) { ... }` of `load`, entered with the character id
just read. The result holds the state of the scripts, the character ids
`loadNPC` was called with (in call order) and the rest of the file. The loop
has no bound of its own, so the embedding counts iterations down from `fuel`
and gives `none` when they are used up. -/
def loadChars {σ : Type} (scripts : TTscripts σ) :
    Nat → σ → Int → SimpleFile → List Int → Option (σ × List Int × SimpleFile)
  | 0, _, _, _, _ => none
  | fuel + 1, reg, charId, file, calls =>
    if charId ≠ 0 then
      match loadNPC scripts reg file charId with
      | none => none
      | some (reg, file) =>
        match readIdents file with
        | none => none
        | some file =>
          match readNumber file with
          | none => none
          | some (next, file) => loadChars scripts fuel reg next file (calls ++ [charId])
    else some (reg, calls, file)

/-- `CTrueTalkManager::load`: the static fields, the state of the scripts, the
character ids `loadNPC` was called with and the rest of the file. -/
def load {σ : Type} (scripts : TTscripts σ) (fuel : Nat) (reg : σ) (st : Statics)
    (file : SimpleFile) : Option (Statics × σ × List Int × SimpleFile) :=
  match loadStatics st file with
  | none => none
  | some (st, file) =>
    match readNumber file with
    | none => none
    | some (charId, file) =>
      match loadChars scripts fuel reg charId file [] with
      | none => none
      | some r => some (st, r)

/-! ## The manager, the dialogue file and the NPC -/

/-- An open `CDialogueFile`: the filename and the cache size it was created
with. The class itself is not part of the translated file. -/
structure CDialogueFile where
  filename : String
  cacheSize : Nat
deriving DecidableEq, Repr

/-- A `TTtalker`: the NPC it was created for (by name) and its `_done` flag. -/
structure TTtalker where
  _npc : String
  _done : Bool
deriving DecidableEq, Repr

/-- The data members of `CTrueTalkManager` used by the translated functions.
`_indexes` stands for `_titleEngine._indexes`, an array of `uint`. -/
structure CTrueTalkManager where
  _currentCharId : Int
  _dialogueFile : Option CDialogueFile
  _dialogueId : Int
  _field18 : Int
  _indexes : List Nat
  _talkers : List TTtalker
deriving DecidableEq, Repr

/-- A `CTrueTalkNPC`, as far as the manager questions it. The class is not
part of the translated file, so the answers are taken as given:
`getName()`; the filename and number the NPC leaves in a
`CTrueTalkGetAssetDetailsMsg`; the result of executing a
`CTrueTalkSelfQueueAnimSetMsg`; and, for the request number `k` of one
`triggerNPC` call, the `(_startFrame, _endFrame)` a `CTrueTalkGetAnimSetMsg`
holds after the NPC has seen it; and, for a state number, the value the
handler of a `CTrueTalkGetStateValueMsg` stores in `_stateVal` (`none` when
it leaves `_stateVal` untouched). -/
structure CTrueTalkNPC where
  name : String
  assetFilename : String
  assetNumValue : Int
  selfQueueAnimSet : Bool
  animSet : Nat → Nat × Nat
  stateValue : Int → Option Int := fun _ => none

/-- The enumeration `PositioningMode`. -/
inductive PositioningMode
  | POSMODE_NONE
  | POSMODE_POLAR
  | POSMODE_VECTOR
deriving DecidableEq, Repr

/-- The fields of `CProximity` the manager sets. The angles and coordinates
are `double` in the source; the manager only stores the whole numbers
`-135`, `135`, `1`, `0` and copies the view position, so they are integers
here. `_endTalkerFn` tells whether the callback is `&talkerEnd`; `_talker`
is the position of the talker in `_talkers`. -/
structure CProximity where
  _channel : Int
  _channelVolume : Int
  _positioningMode : PositioningMode
  _azimuth : Int
  _range : Int
  _elevation : Int
  _posX : Int
  _posY : Int
  _posZ : Int
  _priorSoundHandle : Int
  _endTalkerFn : Bool
  _talker : Option Nat
deriving DecidableEq, Repr

/-- One call the manager makes to a collaborator, in the order of the calls.
A playback or pause issued by the loop of `playSpeech` carries the position
`idx` of the loop at which it was issued; a playback also carries the handle
the sound manager returned, a pause the answer of the event layer. -/
inductive Effect
  | closeDialogueFile (file : CDialogueFile)
  | getAssetDetails
  | openDialogueFile (file : CDialogueFile)
  | selfQueueAnimSet
  | queueUpAnimSet (value : Int)
  | getAnimSet (request : Nat)
  | playMovie (startFrame endFrame flags : Nat)
  | stopChannel (channel : Int)
  | playSpeech (idx : Nat) (speechId : Nat) (prox : CProximity) (handle : Int)
  | sleep (idx : Nat) (milli : Nat) (interrupted : Bool)
  | speechStarted (talker : Nat) (text : List Nat) (index : Nat) (soundId : Int)
  | deleteTalker (talker : TTtalker)
  | getStateValue (stateNum : Int)
  | triggerAction (action param : Int)
deriving DecidableEq, Repr

/-- The collaborators of the manager that are not part of the translated file,
taken as given: the bytes of a text entry of a dialogue file (`none` when
`openTextEntry` returns null); the value `fn1()` of the wave file
`getTrueTalkSound` finds (`none` when it finds none); the handle
`CSound::playSpeech` returns for request number `n` of a call; whether pause
number `n` of a call was cut short; the value of a default-constructed
`CProximity`; and the bytes the local `buffer` of `readDialogueString`
happens to hold on entry. -/
structure World where
  textEntry : CDialogueFile → Nat → Option (List Nat)
  trueTalkSound : Option CDialogueFile → Nat → Option Int
  soundHandle : Nat → Nat → CProximity → Int
  sleepInterrupted : Nat → Bool
  proximity : CProximity
  buffer : List Nat

/-- The constructor of `CTrueTalkManager`. -/
def CTrueTalkManager.new : CTrueTalkManager :=
  { _currentCharId := 0, _dialogueFile := none, _dialogueId := 0, _field18 := 0,
    _indexes := [], _talkers := [] }

/-- `CTrueTalkManager::clear`. -/
def clear (m : CTrueTalkManager) : CTrueTalkManager × List Effect :=
  ({ m with _dialogueFile := none, _currentCharId := 0 },
   match m._dialogueFile with
   | none => []
   | some file => [Effect.closeDialogueFile file])

/-- The value a 32-bit `int` holds when the mathematical value `x` is stored in
it: `x` reduced modulo `2 ^ 32` into the range from `-2 ^ 31` to
`2 ^ 31 - 1`. -/
def toInt32 (x : Int) : Int := (x + 2 ^ 31) % 2 ^ 32 - 2 ^ 31

/-- `CTrueTalkManager::loadAssets`. The sum `detailsMsg._numValue + 1` is an
`int` sum and wraps at 32 bits. -/
def loadAssets (m : CTrueTalkManager) (npc : CTrueTalkNPC) (charId : Int) :
    CTrueTalkManager × List Effect :=
  if m._currentCharId = charId then (m, [])
  else
    let cleared := clear m
    let m := cleared.1
    let fx := cleared.2 ++ [Effect.getAssetDetails]
    if npc.assetFilename ≠ "" then
      let file : CDialogueFile := { filename := npc.assetFilename, cacheSize := 20 }
      ({ m with _dialogueFile := some file, _dialogueId := toInt32 (npc.assetNumValue + 1) },
       fx ++ [Effect.openDialogueFile file])
    else (m, fx)

/-- A call of the manager from outside, for the states it can reach. -/
inductive Call
  | loadAssets (npc : CTrueTalkNPC) (charId : Int)
  | clear

/-- The manager after a sequence of calls. -/
def runCalls : CTrueTalkManager → List Call → CTrueTalkManager
  | m, [] => m
  | m, Call.loadAssets npc charId :: rest => runCalls (loadAssets m npc charId).1 rest
  | m, Call.clear :: rest => runCalls (clear m).1 rest

/-! ## The dialogue text -/

/-- The constant `STRING_BUFFER_SIZE`. -/
def STRING_BUFFER_SIZE : Nat := 2048

/-- The value of `_titleEngine._indexes[idx] - _dialogueId`: a `uint` minus an
`int`, computed in 32-bit unsigned arithmetic. -/
def localIndex (index : Nat) (dialogueId : Int) : Nat :=
  (((index : Int) - dialogueId) % 2 ^ 32).toNat

/-- The loop `for (byte *p = buffer; *p != 0; ++p) if (*p < 32 || *p > 127) *p = 32;`
over the bytes of the buffer. -/
def stripBuffer : List Nat → List Nat
  | [] => []
  | b :: rest =>
    if b = 0 then b :: rest
    else (if b < 32 ∨ b > 127 then 32 else b) :: stripBuffer rest

/-- The string `CString((const char *)buffer)`: the bytes before the first
zero byte. -/
def cString (buffer : List Nat) : List Nat :=
  buffer.takeWhile (fun b => b ≠ 0)

/-- The loop of `readDialogueString`, at position `idx`, over the indexes
still to be visited, with the bytes of `buffer` and the `result` so far.
The result is `none` where the source has no defined behaviour:
`_dialogueFile` is null when it is dereferenced, or the entry has
`STRING_BUFFER_SIZE` bytes or more, in which case `buffer[entrySize] = 0`
writes past the end of `buffer`. -/
def readDialogueLoop (w : World) (dialogueFile : Option CDialogueFile) (dialogueId : Int) :
    Nat → List Nat → List Nat → List Nat → Option (List Nat)
  | _, [], _, result => some result
  | idx, index :: rest, buffer, result =>
    let result := if idx ≠ 0 then result ++ [32] else result
    match dialogueFile with
    | none => none
    | some file =>
      match w.textEntry file (localIndex index dialogueId) with
      | none => readDialogueLoop w dialogueFile dialogueId (idx + 1) rest buffer result
      | some entry =>
        let entrySize := entry.length
        if entrySize < STRING_BUFFER_SIZE then
          let buffer := entry ++ 0 :: buffer.drop (entrySize + 1)
          let buffer := stripBuffer buffer
          readDialogueLoop w dialogueFile dialogueId (idx + 1) rest buffer
            (result ++ cString buffer)
        else none

/-- `CTrueTalkManager::readDialogueString`. -/
def readDialogueString (w : World) (m : CTrueTalkManager) : Option (List Nat) :=
  readDialogueLoop w m._dialogueFile m._dialogueId 0 m._indexes w.buffer []

/-! ## Speech playback -/

/-- The `switch (roomScript->_scriptId)` at the start of `playSpeech`: the
values given to `milli` and `index`. -/
def speechDelay (scriptId : Int) : Nat × Nat :=
  if scriptId = 101 then (300, 16)
  else if scriptId = 106 ∨ scriptId = 107 ∨ scriptId = 110 ∨ scriptId = 114 ∨ scriptId = 115
      ∨ scriptId = 122 then (130, 10)
  else if scriptId = 108 ∨ scriptId = 109 then (200, 10)
  else if scriptId = 111 ∨ scriptId = 116 ∨ scriptId = 121 then (80, 12)
  else if scriptId = 112 ∨ scriptId = 124 ∨ scriptId = 128 ∨ scriptId = 130 then (80, 4)
  else if scriptId = 132 then (60, 4)
  else (0, 4)

/-- The loop of `playSpeech` over `_titleEngine._indexes`, at position `idx`,
over the indexes still to be visited, with the current `p1`, `p2`, `p3`, the
number `n` of playbacks and the number `s` of pauses issued so far; `size`
is `_titleEngine._indexes.size()`. The result lists the calls made. -/
def playSpeechLoop (w : World) (talker : Nat) (dialogueId : Int) (milli size : Nat) :
    Nat → List Nat → CProximity → CProximity → CProximity → Nat → Nat → List Effect
  | _, [], _, _, _, _, _ => []
  | idx, id :: rest, p1, p2, p3, n, s =>
    if id > 100000 then
      playSpeechLoop w talker dialogueId milli size (idx + 1) rest p1 p2 p3 n s
    else
      let p1 := if idx = size - 1 then { p1 with _endTalkerFn := true, _talker := some talker }
        else p1
      let speechId := localIndex id dialogueId
      let h1 := w.soundHandle n speechId p1
      let e1 := Effect.playSpeech idx speechId p1 h1
      let p1 := { p1 with _priorSoundHandle := h1 }
      if milli = 0 then
        e1 :: playSpeechLoop w talker dialogueId milli size (idx + 1) rest p1 p2 p3 (n + 1) s
      else
        let pause1 := if idx = 0 then [Effect.sleep idx milli (w.sleepInterrupted s)] else []
        let s := if idx = 0 then s + 1 else s
        let h3 := w.soundHandle (n + 1) speechId p3
        let e3 := Effect.playSpeech idx speechId p3 h3
        let p3 := { p3 with _priorSoundHandle := h3 }
        let pause2 := if idx = 0 then [Effect.sleep idx milli (w.sleepInterrupted s)] else []
        let s := if idx = 0 then s + 1 else s
        let h2 := w.soundHandle (n + 2) speechId p2
        let e2 := Effect.playSpeech idx speechId p2 h2
        let p2 := { p2 with _priorSoundHandle := h2 }
        e1 :: pause1 ++ e3 :: pause2 ++ e2 ::
          playSpeechLoop w talker dialogueId milli size (idx + 1) rest p1 p2 p3 (n + 3) s

/-- The proximity `p1` of `playSpeech` when the loop is entered. -/
def speechP1 (w : World) (view : Option (Int × Int × Int)) (isParrot : Bool) : CProximity :=
  let p1 := { w.proximity with _channel := if isParrot then 3 else 0 }
  match view with
  | some pos =>
    { p1 with _positioningMode := PositioningMode.POSMODE_VECTOR,
              _posX := pos.1, _posY := pos.2.1, _posZ := pos.2.2 }
  | none => p1

/-- The proximity `p2` of `playSpeech` when the loop is entered. -/
def speechP2 (w : World) (scriptId : Int) (isParrot : Bool) : CProximity :=
  let milli := (speechDelay scriptId).1
  let index := (speechDelay scriptId).2
  let p2 := { w.proximity with _channel := if isParrot then 5 else 1 }
  if milli > 0 then
    { p2 with _channelVolume := ((index * 3) / 4 : Nat),
              _positioningMode := PositioningMode.POSMODE_NONE,
              _azimuth := 135, _range := 1, _elevation := 0 }
  else p2

/-- The proximity `p3` of `playSpeech` when the loop is entered. -/
def speechP3 (w : World) (scriptId : Int) (isParrot : Bool) : CProximity :=
  let milli := (speechDelay scriptId).1
  let index := (speechDelay scriptId).2
  let p3 := { w.proximity with _channel := if isParrot then 4 else 2 }
  if milli > 0 then
    { p3 with _channelVolume := ((index * 3) / 2 : Nat),
              _positioningMode := PositioningMode.POSMODE_POLAR,
              _azimuth := -135, _range := 1, _elevation := 0 }
  else p3

/-- `CTrueTalkManager::playSpeech`, for the talker at position `talker` of
`_talkers`, the room script with id `scriptId` and the position of the view
(`none` for a null view): the calls made, in order. -/
def playSpeech (w : World) (m : CTrueTalkManager) (talker : Nat) (scriptId : Int)
    (view : Option (Int × Int × Int)) (isParrot : Bool) : List Effect :=
  let p1 := speechP1 w view isParrot
  Effect.stopChannel p1._channel ::
    playSpeechLoop w talker m._dialogueId (speechDelay scriptId).1 m._indexes.length
      0 m._indexes p1 (speechP2 w scriptId isParrot) (speechP3 w scriptId isParrot) 0 0

/-! ## Starting a dialogue -/

/-- `CTrueTalkManager::readDialogSound`: the manager with the new `_field18`. -/
def readDialogSound (w : World) (m : CTrueTalkManager) : CTrueTalkManager :=
  { m with _field18 := m._indexes.foldl (fun field18 index =>
      match w.trueTalkSound m._dialogueFile (localIndex index m._dialogueId) with
      | some v => v
      | none => field18) 0 }

/-- The amount `diff` that `triggerNPC` adds to `_field18` after playing a
frame range starting at `startFrame`. The source sets
`getAnimMsg._endFrame = 0` before it computes
`numFrames = getAnimMsg._endFrame - getAnimMsg._startFrame`; the product
`(numFrames * 1000) * 0x88888889` is formed in 32-bit unsigned arithmetic and
then widened, shifted right by `32 + 5` and reduced by 500 into a `uint`. -/
def animDiff (startFrame : Nat) : Nat :=
  let numFrames := (((0 : Int) - startFrame) % 2 ^ 32).toNat
  let val := ((numFrames * 1000) % 2 ^ 32 * 0x88888889) % 2 ^ 32
  ((((val >>> (32 + 5) : Nat) : Int) - 500) % 2 ^ 32).toNat

/-- The `do { ... } while (_field18 > 0)` loop of `triggerNPC`, entered with
the current `_field18` and the number of the next request: the final
`_field18` and the calls made. The loop takes 500 from a positive `_field18`
on each round, so `fuel` rounds are enough when `fuel` is at least
`_field18`; with no round left the loop is cut. -/
def animSetLoop (npc : CTrueTalkNPC) : Nat → Int → Nat → Int × List Effect
  | 0, field18, _ => (field18, [])
  | fuel + 1, field18, request =>
    let startFrame := (npc.animSet request).1
    let endFrame := (npc.animSet request).2
    if endFrame = 0 then (field18, [Effect.getAnimSet request])
    else
      let field18 := toInt32 (field18 + animDiff startFrame)
      let fx := [Effect.getAnimSet request, Effect.playMovie startFrame endFrame 0]
      if field18 > 0 then
        let r := animSetLoop npc fuel field18 (request + 1)
        (r.1, fx ++ r.2)
      else (field18, fx)

/-- `CTrueTalkManager::triggerNPC`. -/
def triggerNPC (m : CTrueTalkManager) (npc : CTrueTalkNPC) : CTrueTalkManager × List Effect :=
  if npc.selfQueueAnimSet then
    (m, Effect.selfQueueAnimSet ::
      (if m._field18 > 300 then [Effect.queueUpAnimSet m._field18] else []))
  else if m._field18 > 300 then
    let r := animSetLoop npc m._field18.toNat m._field18 0
    ({ m with _field18 := r.1 }, Effect.selfQueueAnimSet :: r.2)
  else (m, [Effect.selfQueueAnimSet])

/-- Whether the characters `sub` start the characters `s`. -/
def startsWith : List Char → List Char → Bool
  | _, [] => true
  | [], _ :: _ => false
  | c :: s, d :: sub => c == d && startsWith s sub

/-- Whether the characters `sub` occur in `s` as a contiguous run. -/
def containsChars : List Char → List Char → Bool
  | [], sub => startsWith [] sub
  | c :: s, sub => startsWith (c :: s) sub || containsChars s sub

/-- Modelled from the spec: `CString::contains`, which is not part of the
translated file, is a case-sensitive substring test. -/
def contains (s sub : String) : Bool :=
  containsChars s.toList sub.toList

/-- `CTrueTalkManager::setDialogue`, for the room script with id `scriptId`:
the manager afterwards and the calls made. The result is `none` where
`readDialogueString` has no defined behaviour. -/
def setDialogue (w : World) (m : CTrueTalkManager) (npc : CTrueTalkNPC) (scriptId : Int)
    (view : Option (Int × Int × Int)) : Option (CTrueTalkManager × List Effect) :=
  match readDialogueString w m with
  | none => none
  | some dialogueStr =>
    if dialogueStr = [] then some (m, [])
    else
      let m := readDialogSound w m
      let soundId := m._field18
      let talker := m._talkers.length
      let m := { m with _talkers := m._talkers ++ [{ _npc := npc.name, _done := false }] }
      let isParrot := contains npc.name "parrot"
      let triggered := triggerNPC m npc
      let m := triggered.1
      let speech := playSpeech w m talker scriptId view isParrot
      some (m, triggered.2 ++ speech ++
        [Effect.speechStarted talker dialogueStr (m._indexes.headD 0) soundId])


/-! ## Example data and the descriptions the code is compared with -/

/-- The statics a freshly started game holds in the examples below. -/
def exampleOld : Statics :=
  { _v1 := 0, _v2 := 0, _v3 := 0, _v4 := false, _v5 := false, _v6 := 0, _v7 := 0,
    _v8 := false, _v9 := 0, _v10 := false, _v11 := List.replicate 41 0 }

/-- The statics saved in the examples below. -/
def exampleStatics : Statics :=
  { _v1 := 1, _v2 := -2, _v3 := 3, _v4 := true, _v5 := false, _v6 := 6, _v7 := 7,
    _v8 := true, _v9 := 9, _v10 := false, _v11 := List.replicate 41 5 }

/-- An example registry with two NPC scripts: the script of character 101
saves its id and one number, the script of character 107 its id and two
numbers; `load` consumes what follows the id. -/
def exampleScripts : TTscripts Unit :=
  { getNpcScript := fun _ id => id == 101 || id == 107
    load := fun _ id file => some ((), file.drop (if id == 101 then 1 else 2))
    save := fun _ id => if id == 101 then [101, 5] else [107, 1, 2] }

/-- The character blocks of a save file: for each block its character id, the
data of its script and the two tags. -/
def charBlocks : List (Int × List Int) → SimpleFile
  | [] => []
  | b :: blocks => b.1 :: b.2 ++ identURAH :: identAKER :: charBlocks blocks

/-- The blocks `blocks` have the shape `save` gives them, for scripts in state
`reg`: every character id is non-zero and known to the registry, and the
data of a block is what the `load` of its script consumes; `reg2` is the
state of the scripts after all blocks are loaded. -/
inductive LoadsBlocks {σ : Type} (scripts : TTscripts σ) : σ → List (Int × List Int) → σ → Prop
  | nil (reg : σ) : LoadsBlocks scripts reg [] reg
  | cons (reg reg1 reg2 : σ) (id : Int) (data : List Int) (blocks : List (Int × List Int)) :
      id ≠ 0 → scripts.getNpcScript reg id = true →
      (∀ rest, scripts.load reg id (data ++ rest) = some (reg1, rest)) →
      LoadsBlocks scripts reg1 blocks reg2 →
      LoadsBlocks scripts reg ((id, data) :: blocks) reg2

/-- An NPC that answers the asset query with the file `"z231.dlg"` and the
number 7. -/
def exampleNPC : CTrueTalkNPC :=
  { name := "Parrot", assetFilename := "z231.dlg", assetNumValue := 7,
    selfQueueAnimSet := true, animSet := fun _ => (0, 0) }

/-- An NPC that leaves the filename of the asset query empty. -/
def silentNPC : CTrueTalkNPC :=
  { name := "Doorbot", assetFilename := "", assetNumValue := 7,
    selfQueueAnimSet := true, animSet := fun _ => (0, 0) }

/-- A byte as the text filter leaves it: a byte outside `[32, 127]` becomes a
space, any other byte stays. -/
def filterByte (b : Nat) : Nat := if b < 32 ∨ b > 127 then 32 else b

/-- The text of an entry when every byte of it is filtered. -/
def filterText (entry : List Nat) : List Nat := entry.map filterByte

/-- The text of an entry cut at its first zero byte and then filtered. -/
def entryText (entry : List Nat) : List Nat :=
  filterText (entry.takeWhile (fun b => b ≠ 0))

/-- An example world: the text entries 1 (`Hi`, byte 1, `there`), 2 (`A`, a
zero byte, `B`), 3 (`C`) and 4 (2048 times `A`) in every dialogue file, a
wave of length 1400 for every index, the handle `100 + n` for playback
request `n`, every pause reported as cut short, a default proximity with no
callback, and a buffer full of the byte 255. -/
def exampleWorld : World :=
  { textEntry := fun _ i =>
      if i = 1 then some [72, 105, 1, 116, 104, 101, 114, 101]
      else if i = 2 then some [65, 0, 66]
      else if i = 3 then some [67]
      else if i = 4 then some (List.replicate 2048 65)
      else none
    trueTalkSound := fun _ _ => some 1400
    soundHandle := fun n _ _ => 100 + n
    sleepInterrupted := fun _ => true
    proximity :=
      { _channel := 0, _channelVolume := 100, _positioningMode := PositioningMode.POSMODE_NONE,
        _azimuth := 0, _range := 0, _elevation := 0, _posX := 0, _posY := 0, _posZ := 0,
        _priorSoundHandle := -1, _endTalkerFn := false, _talker := none }
    buffer := List.replicate 2048 255 }

/-- A manager with an open dialogue file, base offset 5000 and the given
response indexes. -/
def exampleManager (indexes : List Nat) : CTrueTalkManager :=
  { _currentCharId := 0, _dialogueFile := some { filename := "z231.dlg", cacheSize := 20 },
    _dialogueId := 5000, _field18 := 0, _indexes := indexes, _talkers := [] }


/-! ## Call sequences reduced to playbacks and pauses -/

/-- The table of `(delayMillis, index)` per room script id, as an association
list; ids that are not listed have `(0, 4)`. -/
def delayTable : List (Int × (Nat × Nat)) :=
  [(101, (300, 16)),
   (106, (130, 10)), (107, (130, 10)), (110, (130, 10)), (114, (130, 10)), (115, (130, 10)),
   (122, (130, 10)),
   (108, (200, 10)), (109, (200, 10)),
   (111, (80, 12)), (116, (80, 12)), (121, (80, 12)),
   (112, (80, 4)), (124, (80, 4)), (128, (80, 4)), (130, (80, 4)),
   (132, (60, 4))]

/-- A playback on a channel of a speech id, or a pause of some milliseconds. -/
inductive Step
  | playback (channel : Int) (speechId : Nat)
  | pause (milli : Nat)
deriving DecidableEq, Repr

/-- The playback or pause a call of the loop of `playSpeech` amounts to, with
the position of the loop that issued it. -/
def Effect.tagged : Effect → Option (Nat × Step)
  | Effect.playSpeech idx speechId prox _ => some (idx, Step.playback prox._channel speechId)
  | Effect.sleep idx milli _ => some (idx, Step.pause milli)
  | _ => none

/-- The playbacks and pauses of a call sequence, in order, each with the loop
position that issued it. -/
def steps (fx : List Effect) : List (Nat × Step) := fx.filterMap Effect.tagged

/-- The playbacks and pauses issued at loop position `k`, in order. -/
def stepsAt (k : Nat) (fx : List Effect) : List Step :=
  (steps fx).filterMap fun x => if x.1 = k then some x.2 else none

/-- Whether a step is a playback on channel `c`. -/
def Step.onChannel (c : Int) : Step → Bool
  | Step.playback channel _ => channel == c
  | Step.pause _ => false

/-- Whether a step is a pause. -/
def Step.isPause : Step → Bool
  | Step.playback _ _ => false
  | Step.pause _ => true

/-- The number of playbacks on channel `c` issued at loop position `k`. -/
def playbackCount (fx : List Effect) (k : Nat) (c : Int) : Nat :=
  ((stepsAt k fx).filter (Step.onChannel c)).length

/-- The playbacks of a call sequence, in order, as pairs of channel and speech
id. -/
def playbacks (fx : List Effect) : List (Int × Nat) :=
  (steps fx).filterMap fun x =>
    match x.2 with
    | Step.playback channel speechId => some (channel, speechId)
    | Step.pause _ => none

/-- The steps of one round of the loop of `playSpeech` for the index `id` at
position `idx`, with `c1`, `c2`, `c3` the channels of `p1`, `p2`, `p3`. -/
def slotSteps (c1 c2 c3 : Int) (dialogueId : Int) (milli idx id : Nat) : List (Nat × Step) :=
  if id > 100000 then []
  else if milli = 0 then [(idx, Step.playback c1 (localIndex id dialogueId))]
  else if idx = 0 then
    [(idx, Step.playback c1 (localIndex id dialogueId)), (idx, Step.pause milli),
     (idx, Step.playback c3 (localIndex id dialogueId)), (idx, Step.pause milli),
     (idx, Step.playback c2 (localIndex id dialogueId))]
  else
    [(idx, Step.playback c1 (localIndex id dialogueId)),
     (idx, Step.playback c3 (localIndex id dialogueId)),
     (idx, Step.playback c2 (localIndex id dialogueId))]

/-- The steps of the rounds of the loop of `playSpeech` from position `idx` on. -/
def loopSteps (c1 c2 c3 : Int) (dialogueId : Int) (milli : Nat) :
    Nat → List Nat → List (Nat × Step)
  | _, [] => []
  | idx, id :: rest =>
    slotSteps c1 c2 c3 dialogueId milli idx id ++
      loopSteps c1 c2 c3 dialogueId milli (idx + 1) rest

/-- The channel a call addresses, for the calls to the sound manager. -/
def Effect.channel : Effect → Option Int
  | Effect.stopChannel channel => some channel
  | Effect.playSpeech _ _ prox _ => some prox._channel
  | _ => none

/-- The playbacks of a call sequence that carry the end-of-speech callback. -/
def callbacks (fx : List Effect) : List Effect :=
  fx.filter fun e =>
    match e with
    | Effect.playSpeech _ _ prox _ => prox._endTalkerFn
    | _ => false

/-- The playbacks of a call sequence on channel `c`, in order, each as the
pair of the prior-sound handle it was given and the handle it returned. -/
def handlesOn (c : Int) (fx : List Effect) : List (Int × Int) :=
  fx.filterMap fun e =>
    match e with
    | Effect.playSpeech _ _ prox handle =>
      if prox._channel = c then some (prox._priorSoundHandle, handle) else none
    | _ => none

/-- The channel, volume, azimuth, range and elevation of a proximity. -/
def geometry (p : CProximity) : Int × Int × Int × Int × Int :=
  (p._channel, p._channelVolume, p._azimuth, p._range, p._elevation)

/-- The proximities of the playbacks of a call sequence, in order. -/
def proximities (fx : List Effect) : List CProximity :=
  fx.filterMap fun e =>
    match e with
    | Effect.playSpeech _ _ prox _ => some prox
    | _ => none


/-! ## Script lookup -/

/-- The script `_scripts.getNpcScript(charId)` returns, named by the character
id it was looked up with; `none` stands for a null pointer. -/
def npcScript {σ : Type} (scripts : TTscripts σ) (reg : σ) (charId : Int) : Option Int :=
  if scripts.getNpcScript reg charId then some charId else none

/-- `CTrueTalkManager::getTalker`. -/
def getTalker {σ : Type} (scripts : TTscripts σ) (reg : σ) (name : String) : Option Int :=
  if contains name "Doorbot" then npcScript scripts reg 104
  else if contains name "DeskBot" then npcScript scripts reg 103
  else if contains name "LiftBot" then npcScript scripts reg 105
  else if contains name "Parrot" then npcScript scripts reg 107
  else if contains name "BarBot" then npcScript scripts reg 100
  else if contains name "ChatterBot" then npcScript scripts reg 102
  else if contains name "BellBot" then npcScript scripts reg 101
  else if contains name "MaitreD" then npcScript scripts reg 112
  else if contains name "Succubus" || contains name "Sub" then npcScript scripts reg 111
  else none

/-- `CTrueTalkManager::getNpcScript`. -/
def getNpcScript {σ : Type} (scripts : TTscripts σ) (reg : σ) (npc : CTrueTalkNPC) :
    Option Int :=
  match getTalker scripts reg npc.name with
  | some script => some script
  | none => npcScript scripts reg 101

/-- The script `_scripts.getRoomScript(scriptId)` returns, named by the id it
was looked up with; `rooms` tells for which ids the registry holds a room
script, and `none` stands for a null pointer. -/
def roomScript (rooms : Int → Bool) (scriptId : Int) : Option Int :=
  if rooms scriptId then some scriptId else none

/-- `CTrueTalkManager::getRoomScript(int roomId)`. -/
def getRoomScript (rooms : Int → Bool) (roomId : Int) : Option Int :=
  let script : Option Int := none
  let script := if roomId ≠ 0 then roomScript rooms roomId else script
  match script with
  | some script => some script
  | none => roomScript rooms 110

/-- `CTrueTalkManager::getRoomScript()`; `room` is the script id of the room
`_gameManager->getRoom()` returns, `none` when it returns null. -/
def getCurrentRoomScript (rooms : Int → Bool) (room : Option Int) : Option Int :=
  let script : Option Int := none
  let script :=
    match room with
    | some scriptId => if scriptId ≠ 0 then roomScript rooms scriptId else script
    | none => script
  match script with
  | some script => some script
  | none => roomScript rooms 110

/-! ## Talkers -/

/-- The loop of `removeCompleted` over the talker list: the talkers that stay
and the talkers that are erased and deleted, both in list order. -/
def removeCompletedLoop : List TTtalker → List TTtalker × List TTtalker
  | [] => ([], [])
  | talker :: rest =>
    if talker._done then ((removeCompletedLoop rest).1, talker :: (removeCompletedLoop rest).2)
    else (talker :: (removeCompletedLoop rest).1, (removeCompletedLoop rest).2)

/-- `CTrueTalkManager::removeCompleted`. -/
def removeCompleted (m : CTrueTalkManager) : CTrueTalkManager × List Effect :=
  ({ m with _talkers := (removeCompletedLoop m._talkers).1 },
   (removeCompletedLoop m._talkers).2.map Effect.deleteTalker)

/-- `CTrueTalkManager::preLoad`. -/
def preLoad (m : CTrueTalkManager) : CTrueTalkManager × List Effect :=
  ({ m with _talkers := [] }, m._talkers.map Effect.deleteTalker)

/-! ## Queries of the script engine -/

/-- `CTrueTalkManager::getStateValue`, with the static `_currentNPC` as an
argument (`none` for a null pointer): the value returned and the messages
sent. -/
def getStateValue (currentNPC : Option CTrueTalkNPC) (stateNum : Int) : Int × List Effect :=
  match currentNPC with
  | none => (-1000, [])
  | some npc => ((npc.stateValue stateNum).getD (-1000), [Effect.getStateValue stateNum])

/-- `CTrueTalkManager::triggerAction`: the value returned and the messages
sent. -/
def triggerAction (currentNPC : Option CTrueTalkNPC) (action param : Int) :
    Bool × List Effect :=
  match currentNPC with
  | none => (false, [])
  | some _ => (true, [Effect.triggerAction action param])

/-! ## Flags -/

/-- The assignment `array[index] = val` on an array given as a list. An index
outside the array has no defined behaviour in the source: `none`. -/
def writeArray (array : List Int) (index val : Int) : Option (List Int) :=
  if 0 ≤ index ∧ index < array.length then some (array.set index.toNat val) else none

/-- `CTrueTalkManager::setFlags`: the static fields afterwards, `none` where
the source writes outside `_v11`. -/
def setFlags (st : Statics) (index val : Int) : Option Statics :=
  if index = 1 then
    some (if val ≥ 1 ∧ val ≤ 3 then { st with _v3 := val } else st)
  else if index = 2 then some { st with _v4 := val == 0 }
  else if index = 3 then some { st with _v5 := val != 0 }
  else if index = 4 then
    some (if val ≥ 0 ∧ val ≤ 3 then { st with _v6 := val } else st)
  else if index = 5 then some { st with _v7 := val }
  else if index = 6 then some { st with _v8 := val != 0 }
  else if index < 41 then
    match writeArray st._v11 index val with
    | some v11 => some { st with _v11 := v11 }
    | none => none
  else some st

/-! ## Further example data and descriptions -/

/-- An example registry that holds an NPC script for every character id. -/
def fullScripts : TTscripts Unit :=
  { getNpcScript := fun _ _ => true
    load := fun _ _ file => some ((), file)
    save := fun _ id => [id] }

/-- The nine display names and character ids of the NPC name table, in order. -/
def displayNames : List (String × Int) :=
  [("Doorbot", 104), ("DeskBot", 103), ("LiftBot", 105), ("Parrot", 107), ("BarBot", 100),
   ("ChatterBot", 102), ("BellBot", 101), ("MaitreD", 112), ("Succubus", 111)]

/-- The substrings `getTalker` looks for, with their character ids, in the
order of its tests: the nine display names and `Sub`. -/
def talkerNames : List (String × Int) :=
  displayNames ++ [("Sub", 111)]

/-- The character id of the first entry of a name table whose substring occurs
in `name`. -/
def matchedId (table : List (String × Int)) (name : String) : Option Int :=
  (table.find? (fun entry => contains name entry.1)).map Prod.snd

/-- The frames-to-milliseconds amount `floor(numFrames * 1000 / 60) - 500` for
the frame range from `startFrame` to `endFrame`. -/
def frameBudget (startFrame endFrame : Nat) : Int :=
  (((endFrame : Int) - startFrame) * 1000) / 60 - 500

/-- An NPC without the self-queuing capability that answers the first frame
range request with the frames 0 to 60 and the second with no range. -/
def movieNPC : CTrueTalkNPC :=
  { name := "BellBot", assetFilename := "z231.dlg", assetNumValue := 7,
    selfQueueAnimSet := false, animSet := fun k => if k = 0 then (0, 60) else (0, 0) }


/-! ## Properties of the static block -/

theorem saveFlags_append (pre fl : List Int) (file : SimpleFile) :
    saveFlags (pre ++ fl) file pre.length fl.length = file ++ fl := by
  induction fl generalizing pre file with
  | nil => simp [saveFlags]
  | cons v fl ih =>
    have h := ih (pre ++ [v]) (writeNumber file v)
    simp only [List.append_assoc, List.singleton_append, List.length_append,
      List.length_singleton] at h
    simp only [List.length_cons, saveFlags]
    have hv : (pre ++ v :: fl).getD pre.length 0 = v := by
      rw [List.getD_eq_getElem?_getD, List.getElem?_append_right (le_refl _)]
      simp
    rw [hv, h]
    simp [writeNumber]

/-- The numbers `saveStatics` appends to a file, when `_v11` has 41 entries. -/
theorem saveStatics_eq (st : Statics) (h : st._v11.length = 41) (file : SimpleFile) :
    saveStatics st file =
      file ++ [10, st._v1, st._v2, st._v3, if st._v4 then 1 else 0, if st._v5 then 1 else 0,
        st._v6, st._v7, if st._v8 then 1 else 0, st._v9, if st._v10 then 1 else 0, 41]
        ++ st._v11 := by
  have hf := fun file => saveFlags_append [] st._v11 file
  simp only [List.nil_append, List.length_nil, h] at hf
  simp [saveStatics, hf, writeNumber]

theorem loadFlags_append (fl pre old rest : List Int) (hlen : pre.length + fl.length = 41)
    (hold : old.length = 41) :
    loadFlags 41 pre.length (pre ++ old.drop pre.length) (fl ++ rest)
      = some (pre ++ fl, rest) := by
  induction fl generalizing pre with
  | nil =>
    have hp : pre.length = 41 := by simpa using hlen
    have hd : old.drop pre.length = [] := by
      rw [List.drop_eq_nil_iff]; omega
    rw [hd, hp]
    cases rest <;> simp [loadFlags]
  | cons v fl ih =>
    have hp : pre.length < 41 := by simp at hlen; omega
    have h := ih (pre ++ [v]) (by simp at hlen ⊢; omega)
    simp only [List.append_assoc, List.singleton_append, List.length_append,
      List.length_singleton] at h
    have hset : (pre ++ old.drop pre.length).set pre.length v
        = pre ++ v :: old.drop (pre.length + 1) := by
      have : old.drop pre.length = old[pre.length] :: old.drop (pre.length + 1) := by
        rw [List.drop_eq_getElem_cons]
      rw [List.set_append_right _ _ (le_refl _), Nat.sub_self, this]
      rfl
    simp only [List.cons_append, loadFlags]
    have hlt : ((pre.length : Nat) : Int) < 41 := by omega
    simp only [hlt, hp, if_true, hset]
    exact h


theorem skipLegacy_none (count idx : Int) (h : 10 < count) (file : SimpleFile) :
    skipLegacy count idx file = none := by
  induction file generalizing idx with
  | nil => simp [skipLegacy, h]
  | cons x rest ih => simp [skipLegacy, h, ih]

theorem loadStatics_roundtrip (old st : Statics) (hold : old._v11.length = 41)
    (hst : st._v11.length = 41) (rest : SimpleFile) :
    loadStatics old (saveStatics st [] ++ rest) = some (st, rest) := by
  have hf := loadFlags_append st._v11 [] old._v11 rest (by simpa using hst) hold
  simp only [List.nil_append, List.length_nil, List.drop_zero] at hf
  rw [saveStatics_eq st hst]
  simp only [List.nil_append, List.cons_append, loadStatics, readThen, readNumber]
  have hs : ∀ file : SimpleFile, skipLegacy 10 10 (41 :: file) = some (41 :: file) := by
    intro file; simp [skipLegacy]
  simp only [hs, hf]
  rcases st with ⟨v1, v2, v3, v4, v5, v6, v7, v8, v9, v10, v11⟩
  cases v4 <;> cases v5 <;> cases v8 <;> cases v10 <;> simp_all

/-- C1: for all values of the ten static fields and of the 41 flags, `saveStatics`
writes 53 numbers, and `loadStatics` run on these numbers (followed by any
further numbers `rest`) restores the same ten fields and the same 41 flags
and leaves exactly `rest` unread, whatever the statics held before. -/
theorem loadStatics_saveStatics (old st : Statics) (hold : old._v11.length = 41)
    (hst : st._v11.length = 41) (rest : SimpleFile) :
    (saveStatics st []).length = 53 ∧
      loadStatics old (saveStatics st [] ++ rest) = some (st, rest) := by
  refine ⟨?_, loadStatics_roundtrip old st hold hst rest⟩
  rw [saveStatics_eq st hst]
  simp [hst]

/-- Witness for C1 on a concrete state. -/
theorem loadStatics_saveStatics_witness :
    (saveStatics exampleStatics []).length = 53 ∧
      loadStatics exampleOld (saveStatics exampleStatics [] ++ [7, 8])
        = some (exampleStatics, [7, 8]) :=
  loadStatics_saveStatics exampleOld exampleStatics (by decide) (by decide) [7, 8]

/-- C5, the code at a file whose first number is 11: the ten header fields are
followed by one legacy number (77), the flag count 41, 41 flags and a final
0. The loop `for (int idx = count; count > 10; --idx)` never leaves, reads
to the end of the file and the load fails, instead of skipping the one
legacy number and reading the flags. -/
theorem loadStatics_count_eleven :
    loadStatics exampleOld
      ([11, 1, -2, 3, 1, 0, 6, 7, 1, 9, 0, 77, 41] ++ List.replicate 41 5 ++ [0]) = none ∧
    loadStatics exampleOld
      ([10, 1, -2, 3, 1, 0, 6, 7, 1, 9, 0, 41] ++ List.replicate 41 5 ++ [0])
        = some (exampleStatics, [0]) := by
  constructor
  · simp [loadStatics, readThen, readNumber, skipLegacy_none]
  · decide


/-! ## Properties of `save` and `load` -/

theorem saveNPC_eq {σ : Type} (scripts : TTscripts σ) (reg : σ) (file : SimpleFile)
    (charId : Int) :
    saveNPC scripts reg file charId = file ++
      (if scripts.getNpcScript reg charId then
        scripts.save reg charId ++ [identURAH, identAKER] else []) := by
  unfold saveNPC writeNumber
  split <;> simp

theorem filter_flatMap_eq {α β : Type} (p : α → Bool) (f : α → List β) (l : List α) :
    (l.filter p).flatMap f = l.flatMap (fun a => if p a then f a else []) := by
  induction l with
  | nil => rfl
  | cons a l ih =>
    by_cases h : p a = true <;> simp [List.filter_cons, h, ih]

/-- C3: the numbers `save` writes are the static block of `saveStatics`, then,
for each id of 101, 103, 104, 105, 111, 100, 112, 107 in this order for
which the registry holds an NPC script, the data saved by that script
followed by the first and the second tag, then a single 0. An id without a
script contributes nothing. -/
theorem save_eq {σ : Type} (scripts : TTscripts σ) (reg : σ) (st : Statics)
    (file : SimpleFile) :
    save scripts reg st file =
      saveStatics st file ++
        (([101, 103, 104, 105, 111, 100, 112, 107] : List Int).filter
            (fun id => scripts.getNpcScript reg id)).flatMap
          (fun id => scripts.save reg id ++ [identURAH, identAKER]) ++ [0] := by
  rw [filter_flatMap_eq]
  simp only [save, saveNPC_eq, writeNumber, List.flatMap_cons, List.flatMap_nil,
    List.append_assoc, List.append_nil]

/-- C6, the values as the claim states them: `MKTAG_BE('U','R','A','H')` is not
`0x55524148` and `MKTAG_BE('A','K','E','R')` is not `0x414B4552`. -/
theorem MKTAG_BE_not_big_endian :
    MKTAG_BE 'U'.toNat 'R'.toNat 'A'.toNat 'H'.toNat ≠ 0x55524148 ∧
      MKTAG_BE 'A'.toNat 'K'.toNat 'E'.toNat 'R'.toNat ≠ 0x414B4552 := by
  decide

/-- C6, amended: the macro `MKTAG_BE` puts its first argument in the lowest
byte, so the first tag is `0x48415255` and the second `0x52454B41`; these are
the two numbers `saveNPC` writes after the data of a script, and the numbers
`load` compares with: a first number equal to `0x48415255` ends the block
after the next number, and otherwise a second number equal to `0x52454B41`
does. -/
theorem sentinel_values {σ : Type} (scripts : TTscripts σ) (reg : σ) (file : SimpleFile)
    (charId : Int) (h : scripts.getNpcScript reg charId = true) (x ident1 : Int)
    (rest : SimpleFile) (h1 : ident1 ≠ 0x48415255) :
    MKTAG_BE 'U'.toNat 'R'.toNat 'A'.toNat 'H'.toNat = 0x48415255 ∧
      MKTAG_BE 'A'.toNat 'K'.toNat 'E'.toNat 'R'.toNat = 0x52454B41 ∧
      saveNPC scripts reg file charId
        = file ++ scripts.save reg charId ++ [0x48415255, 0x52454B41] ∧
      readIdents (0x48415255 :: x :: rest) = some rest ∧
      readIdents (ident1 :: 0x52454B41 :: rest) = some rest := by
  have hU : identURAH = 0x48415255 := by decide
  have hA : identAKER = 0x52454B41 := by decide
  refine ⟨by decide, by decide, ?_, ?_, ?_⟩
  · rw [saveNPC_eq, h, hU, hA]; simp
  · simp [readIdents, readThen, readNumber, hU]
  · cases rest <;> simp [readIdents, readThen, readNumber, hU, hA, h1, skipIdents]

/-- Witness for C6 on the example registry. -/
theorem sentinel_values_witness :
    MKTAG_BE 'U'.toNat 'R'.toNat 'A'.toNat 'H'.toNat = 0x48415255 ∧
      MKTAG_BE 'A'.toNat 'K'.toNat 'E'.toNat 'R'.toNat = 0x52454B41 ∧
      saveNPC exampleScripts () [3] 101 = [3] ++ [101, 5] ++ [0x48415255, 0x52454B41] ∧
      readIdents (0x48415255 :: 4 :: [107]) = some [107] ∧
      readIdents (9 :: 0x52454B41 :: [107]) = some [107] :=
  sentinel_values exampleScripts () [3] 101 (by decide) 4 9 [107] (by decide)


theorem readNumber_cons (x : Int) (rest : SimpleFile) :
    readNumber (x :: rest) = some (x, rest) := rfl

theorem readIdents_tags (rest : SimpleFile) :
    readIdents (identURAH :: identAKER :: rest) = some rest := by
  simp [readIdents, readThen, readNumber]

theorem loadChars_blocks {σ : Type} (scripts : TTscripts σ) (reg reg2 : σ)
    (blocks : List (Int × List Int)) (h : LoadsBlocks scripts reg blocks reg2) :
    ∀ (fuel : Nat) (calls : List Int) (rest : SimpleFile), blocks.length < fuel →
      (match readNumber (charBlocks blocks ++ 0 :: rest) with
        | none => none
        | some (next, file) => loadChars scripts fuel reg next file calls)
        = some (reg2, calls ++ blocks.map Prod.fst, rest) := by
  induction h with
  | nil reg =>
    intro fuel calls rest hfuel
    cases fuel with
    | zero => simp at hfuel
    | succ fuel => simp [charBlocks, readNumber, loadChars]
  | cons reg reg1 reg2 id data blocks hid hreg hload _ ih =>
    intro fuel calls rest hfuel
    cases fuel with
    | zero => simp at hfuel
    | succ fuel =>
      have hf : blocks.length < fuel := by simpa using hfuel
      have hl := hload (identURAH :: identAKER :: (charBlocks blocks ++ 0 :: rest))
      have ih2 := ih fuel (calls ++ [id]) rest hf
      simp only [charBlocks, List.cons_append, List.append_assoc, readNumber_cons, loadChars, hid,
        ne_eq, not_false_eq_true, if_true, loadNPC, hreg, hl, readIdents_tags]
      rw [ih2]
      simp

/-- C2: for a file that holds the static block written by `saveStatics`, then
character blocks (each a non-zero character id known to the registry, the
data the `load` of that script consumes, the first tag and the second tag),
then a 0 and any further numbers `rest`, `load` returns the saved statics,
has called `loadNPC` once per block with the character ids of the blocks in
file order, and leaves exactly `rest` unread: every number up to and
including the terminating 0 is consumed, nothing after it. One round of the
loop per block and one for the 0 are enough. -/
theorem load_saved_shape {σ : Type} (scripts : TTscripts σ) (old st : Statics)
    (hold : old._v11.length = 41) (hst : st._v11.length = 41) (reg reg2 : σ)
    (blocks : List (Int × List Int)) (h : LoadsBlocks scripts reg blocks reg2)
    (fuel : Nat) (hfuel : blocks.length < fuel) (rest : SimpleFile) :
    load scripts fuel reg old (saveStatics st [] ++ (charBlocks blocks ++ 0 :: rest))
      = some (st, reg2, blocks.map Prod.fst, rest) := by
  have h1 := loadStatics_roundtrip old st hold hst (charBlocks blocks ++ 0 :: rest)
  have h2 := loadChars_blocks scripts reg reg2 blocks h fuel [] rest hfuel
  unfold load
  rw [h1]
  simp only
  cases hr : readNumber (charBlocks blocks ++ 0 :: rest) with
  | none => rw [hr] at h2; simp at h2
  | some p =>
    rw [hr] at h2
    simp only at h2 ⊢
    rw [h2]
    simp

/-- Witness for C2: a file with the blocks of characters 101 and 107. -/
theorem load_saved_shape_witness :
    load exampleScripts 3 () exampleOld
        (saveStatics exampleStatics [] ++ (charBlocks [(101, [5]), (107, [1, 2])] ++ 0 :: [8]))
      = some (exampleStatics, (), [(101, [5]), (107, [1, 2])].map Prod.fst, [8]) :=
  load_saved_shape exampleScripts exampleOld exampleStatics (by decide) (by decide) () ()
    [(101, [5]), (107, [1, 2])]
    (LoadsBlocks.cons () () () 101 [5] _ (by decide) (by decide) (fun _ => rfl)
      (LoadsBlocks.cons () () () 107 [1, 2] _ (by decide) (by decide) (fun _ => rfl)
        (LoadsBlocks.nil ())))
    3 (by decide) [8]


theorem runCalls_currentCharId (m : CTrueTalkManager) (calls : List Call)
    (h : m._currentCharId = 0) : (runCalls m calls)._currentCharId = 0 := by
  induction calls generalizing m with
  | nil => exact h
  | cons c calls ih =>
    cases c with
    | loadAssets npc charId =>
      apply ih
      by_cases hc : m._currentCharId = charId
      · rw [loadAssets, if_pos hc]; exact h
      · by_cases hf : npc.assetFilename = "" <;> simp [loadAssets, clear, hc, hf]
    | clear => exact ih _ rfl

/-- C7, the code after construction and one `loadAssets` for character 101
with an NPC that names a dialogue file: `_dialogueFile` is set while
`_currentCharId` is still 0, because `loadAssets` never assigns
`_currentCharId`. -/
theorem loadAssets_leaves_currentCharId :
    (runCalls CTrueTalkManager.new [Call.loadAssets exampleNPC 101])._dialogueFile
        = some { filename := "z231.dlg", cacheSize := 20 } ∧
      (runCalls CTrueTalkManager.new [Call.loadAssets exampleNPC 101])._currentCharId = 0 := by
  decide

theorem toInt32_of_range (x : Int) (h1 : -2 ^ 31 ≤ x) (h2 : x < 2 ^ 31) : toInt32 x = x := by
  unfold toInt32
  omega

/-- C8, the base offset as the claim states it: when the NPC returns the file
`z231.dlg` and the number 2147483647, `_dialogueId` is -2147483648 after
`loadAssets`, not the returned number plus 1. -/
theorem loadAssets_offset_wraps :
    (loadAssets CTrueTalkManager.new { exampleNPC with assetNumValue := 2147483647 }
        107).1._dialogueId = -2147483648 ∧
      (loadAssets CTrueTalkManager.new { exampleNPC with assetNumValue := 2147483647 }
        107).1._dialogueId ≠ 2147483647 + 1 := by
  decide

/-- C8, amended: `loadAssets` with the current character id changes no field
and makes no call; with another id it releases the previous dialogue file
(if one is open), sends the asset query to the NPC once and, when the NPC
names a file, opens a dialogue file of that name and sets `_dialogueId` to
the returned number plus 1 in 32-bit `int` arithmetic, which is the returned
number plus 1 for every `int` below 2147483647 (and wraps for 2147483647),
while with an empty filename no dialogue file is open afterwards and
`_dialogueId` is unchanged. -/
theorem loadAssets_spec (m : CTrueTalkManager) (npc : CTrueTalkNPC) (charId : Int) :
    (m._currentCharId = charId → loadAssets m npc charId = (m, [])) ∧
    (m._currentCharId ≠ charId →
      (loadAssets m npc charId).2 =
          (match m._dialogueFile with
            | none => []
            | some file => [Effect.closeDialogueFile file]) ++ [Effect.getAssetDetails] ++
          (if npc.assetFilename ≠ "" then
            [Effect.openDialogueFile { filename := npc.assetFilename, cacheSize := 20 }]
           else []) ∧
      (loadAssets m npc charId).2.count Effect.getAssetDetails = 1 ∧
      (npc.assetFilename ≠ "" →
        (loadAssets m npc charId).1._dialogueFile
            = some { filename := npc.assetFilename, cacheSize := 20 } ∧
          (loadAssets m npc charId).1._dialogueId = toInt32 (npc.assetNumValue + 1) ∧
          (-2 ^ 31 ≤ npc.assetNumValue → npc.assetNumValue < 2 ^ 31 - 1 →
            (loadAssets m npc charId).1._dialogueId = npc.assetNumValue + 1)) ∧
      (npc.assetFilename = "" →
        (loadAssets m npc charId).1._dialogueFile = none ∧
          (loadAssets m npc charId).1._dialogueId = m._dialogueId)) := by
  refine ⟨fun h => by simp [loadAssets, h], fun h => ?_⟩
  by_cases hf : npc.assetFilename = ""
  · cases hd : m._dialogueFile <;> simp [loadAssets, clear, h, hf, hd]
  · have hr : -2 ^ 31 ≤ npc.assetNumValue → npc.assetNumValue < 2 ^ 31 - 1 →
        toInt32 (npc.assetNumValue + 1) = npc.assetNumValue + 1 :=
      fun h1 h2 => toInt32_of_range _ (by omega) (by omega)
    cases hd : m._dialogueFile <;> simp [loadAssets, clear, h, hf, hd] <;> exact hr

/-- Witness for C8: the same character id, another id with an NPC that names a
file while a file is open, and another id with an NPC that names none. -/
theorem loadAssets_spec_witness :
    loadAssets (exampleManager []) exampleNPC 0 = (exampleManager [], []) ∧
    (loadAssets (exampleManager []) exampleNPC 107).2 =
      [Effect.closeDialogueFile { filename := "z231.dlg", cacheSize := 20 },
        Effect.getAssetDetails,
        Effect.openDialogueFile { filename := "z231.dlg", cacheSize := 20 }] ∧
    (loadAssets (exampleManager []) exampleNPC 107).1._dialogueId
      = exampleNPC.assetNumValue + 1 ∧
    (loadAssets (exampleManager []) exampleNPC 107).1._dialogueId = 8 ∧
    (loadAssets (exampleManager []) silentNPC 104).1._dialogueFile = none ∧
    (loadAssets (exampleManager []) silentNPC 104).1._dialogueId = 5000 :=
  ⟨(loadAssets_spec (exampleManager []) exampleNPC 0).1 rfl,
   ((loadAssets_spec (exampleManager []) exampleNPC 107).2 (by decide)).1,
   (((loadAssets_spec (exampleManager []) exampleNPC 107).2 (by decide)).2.2.1
      (by decide)).2.2 (by decide) (by decide),
   by decide,
   (((loadAssets_spec (exampleManager []) silentNPC 104).2 (by decide)).2.2.2 rfl).1,
   (((loadAssets_spec (exampleManager []) silentNPC 104).2 (by decide)).2.2.2 rfl).2⟩


/-! ## Properties of the dialogue text -/

theorem filterByte_ne_zero (b : Nat) : filterByte b ≠ 0 := by
  unfold filterByte
  split <;> omega

theorem cString_stripBuffer (entry tail : List Nat) :
    cString (stripBuffer (entry ++ 0 :: tail)) = entryText entry := by
  induction entry with
  | nil => simp [stripBuffer, cString, entryText, filterText]
  | cons b entry ih =>
    by_cases hb : b = 0
    · simp [stripBuffer, cString, entryText, filterText, hb]
    · have hne := filterByte_ne_zero b
      unfold filterByte at hne
      simp [cString, entryText, filterText] at ih
      simp [stripBuffer, cString, entryText, filterText, hb, filterByte, hne, ih]

theorem entryText_of_no_zero (entry : List Nat) (h : ∀ b ∈ entry, b ≠ 0) :
    entryText entry = filterText entry := by
  unfold entryText
  congr 1
  rw [List.takeWhile_eq_self_iff]
  intro b hb
  simpa using h b hb

theorem localIndex_eq (index : Nat) (dialogueId : Int) (h1 : dialogueId ≤ index)
    (h2 : (index : Int) - dialogueId < 2 ^ 32) :
    (localIndex index dialogueId : Int) = index - dialogueId := by
  unfold localIndex
  rw [Int.emod_eq_of_lt (by omega) h2, Int.toNat_of_nonneg (by omega)]

theorem intercalate_cons_cons (sep x y : List Nat) (l : List (List Nat)) :
    List.intercalate sep (x :: y :: l) = x ++ sep ++ List.intercalate sep (y :: l) := by
  simp [List.intercalate, List.intersperse]

theorem readDialogueLoop_join (w : World) (file : CDialogueFile) (dialogueId : Int)
    (indexes : List Nat)
    (hall : ∀ index ∈ indexes, ∃ entry,
      w.textEntry file (localIndex index dialogueId) = some entry ∧
        entry.length < STRING_BUFFER_SIZE) :
    ∀ (idx : Nat) (buffer result : List Nat),
      readDialogueLoop w (some file) dialogueId idx indexes buffer result =
        some (result ++ (if idx ≠ 0 ∧ indexes ≠ [] then [32] else []) ++
          List.intercalate [32] (indexes.map fun index =>
            entryText ((w.textEntry file (localIndex index dialogueId)).getD []))) := by
  induction indexes with
  | nil => intro idx buffer result; simp [readDialogueLoop, List.intercalate]
  | cons index indexes ih =>
    intro idx buffer result
    obtain ⟨entry, he, hs⟩ := hall index (by simp)
    have ih2 := ih (fun i hi => hall i (by simp [hi]))
    simp only [readDialogueLoop, he, hs, if_true, cString_stripBuffer, ih2, ne_eq,
      List.map_cons, Option.getD_some, not_false_eq_true, and_true, true_and,
      Nat.add_one_ne_zero, reduceCtorEq]
    cases indexes with
    | nil => by_cases h0 : idx = 0 <;> simp [h0, List.intercalate]
    | cons i2 indexes =>
      rw [List.map_cons, intercalate_cons_cons]
      by_cases h0 : idx = 0 <;> simp [h0]

/-- For a single index whose entry has `STRING_BUFFER_SIZE` bytes or more the
embedding has no result: the source writes `buffer[entrySize]` past the end
of `buffer`. -/
theorem readDialogueString_large_entry (w : World) (m : CTrueTalkManager) (file : CDialogueFile)
    (index : Nat) (entry : List Nat) (hfile : m._dialogueFile = some file)
    (hidx : m._indexes = [index])
    (hentry : w.textEntry file (localIndex index m._dialogueId) = some entry)
    (hsize : STRING_BUFFER_SIZE ≤ entry.length) :
    readDialogueString w m = none := by
  have hn : ¬ entry.length < STRING_BUFFER_SIZE := by omega
  simp [readDialogueString, hfile, hidx, readDialogueLoop, hentry, hn]

/-- C9, the text as the claim states it: the entry `A`, zero byte, `B` (three
bytes) read through the single index 5002 gives the one-byte text `A`, not
the three bytes `A`, space, `B` of the filtered entry. -/
theorem readDialogueString_cuts_at_zero :
    exampleWorld.textEntry { filename := "z231.dlg", cacheSize := 20 } (localIndex 5002 5000)
        = some [65, 0, 66] ∧
      readDialogueString exampleWorld (exampleManager [5002]) = some [65] ∧
      readDialogueString exampleWorld (exampleManager [5002]) ≠ some (filterText [65, 0, 66]) := by
  decide

/-- C9, amended: for a raw text entry shorter than 2048 bytes, the text
`readDialogueString` returns for a single response index that resolves to
the entry consists of the bytes of the entry before its first zero byte,
each byte outside `[32, 127]` replaced by a space and every other byte
unchanged; when the entry holds no zero byte this is the whole entry,
filtered, and the text is as long as the entry. -/
theorem readDialogueString_single (w : World) (m : CTrueTalkManager) (file : CDialogueFile)
    (index : Nat) (entry : List Nat) (hfile : m._dialogueFile = some file)
    (hidx : m._indexes = [index])
    (hentry : w.textEntry file (localIndex index m._dialogueId) = some entry)
    (hsize : entry.length < 2048) :
    readDialogueString w m
        = some ((entry.takeWhile (fun b => b ≠ 0)).map
            (fun b => if b < 32 ∨ b > 127 then 32 else b)) ∧
      ((∀ b ∈ entry, b ≠ 0) →
        readDialogueString w m = some (entry.map (fun b => if b < 32 ∨ b > 127 then 32 else b)) ∧
          ∀ text, readDialogueString w m = some text → text.length = entry.length) := by
  have h := readDialogueLoop_join w file m._dialogueId [index]
    (by intro i hi; simp at hi; subst hi; exact ⟨entry, hentry, hsize⟩) 0 w.buffer []
  have hr : readDialogueString w m = some (entryText entry) := by
    unfold readDialogueString
    rw [hfile, hidx, h]
    simp [hentry, List.intercalate]
  refine ⟨hr, fun hz => ?_⟩
  have hr2 : readDialogueString w m = some (filterText entry) := by
    rw [hr, entryText_of_no_zero entry hz]
  refine ⟨hr2, fun text ht => ?_⟩
  rw [hr2] at ht
  injection ht with ht
  subst ht
  simp [filterText]

/-- Witness for C9: the raw bytes `H`, `i`, 1, `t`, `h`, `e`, `r`, `e` give
the text `Hi there`. -/
theorem readDialogueString_single_witness :
    readDialogueString exampleWorld (exampleManager [5001])
        = some (([72, 105, 1, 116, 104, 101, 114, 101].takeWhile (fun b => b ≠ 0)).map
            (fun b => if b < 32 ∨ b > 127 then 32 else b)) ∧
      readDialogueString exampleWorld (exampleManager [5001])
        = some ("Hi there".toList.map Char.toNat) :=
  ⟨(readDialogueString_single exampleWorld (exampleManager [5001])
      { filename := "z231.dlg", cacheSize := 20 } 5001 [72, 105, 1, 116, 104, 101, 114, 101]
      rfl rfl (by decide) (by decide)).1,
   by decide⟩


/-- C10, the merged text as the claim states it: for the indexes 5002 and 5003,
whose entries (`A`, zero byte, `B`; and `C`) both exist, the code returns
`A C`, not the filtered texts `A B` and `C` joined by a space. -/
theorem readDialogueString_join_cuts_at_zero :
    readDialogueString exampleWorld (exampleManager [5002, 5003]) = some [65, 32, 67] ∧
      readDialogueString exampleWorld (exampleManager [5002, 5003])
        ≠ some (List.intercalate [32] [filterText [65, 0, 66], filterText [67]]) := by
  decide

/-- C10, amended: for a response index sequence all of whose entries exist in
the dialogue file and are shorter than 2048 bytes, `readDialogueString`
returns the texts of the entries at the asset-local indexes (index minus
`_dialogueId`, in 32-bit unsigned arithmetic), each cut at its first zero
byte and filtered, in sequence order, joined by exactly one space between
consecutive texts, with no separator at the start or the end. -/
theorem readDialogueString_join (w : World) (m : CTrueTalkManager) (file : CDialogueFile)
    (hfile : m._dialogueFile = some file)
    (hall : ∀ index ∈ m._indexes, ∃ entry,
      w.textEntry file (localIndex index m._dialogueId) = some entry ∧ entry.length < 2048) :
    readDialogueString w m =
        some (List.intercalate [32] (m._indexes.map fun index =>
          entryText ((w.textEntry file (localIndex index m._dialogueId)).getD []))) ∧
      ∀ index ∈ m._indexes, m._dialogueId ≤ index → (index : Int) - m._dialogueId < 2 ^ 32 →
        (localIndex index m._dialogueId : Int) = index - m._dialogueId := by
  refine ⟨?_, fun index _ h1 h2 => localIndex_eq index m._dialogueId h1 h2⟩
  unfold readDialogueString
  rw [hfile, readDialogueLoop_join w file m._dialogueId m._indexes hall 0 w.buffer []]
  simp

/-- Witness for C10: the indexes 5001 and 5003 give `Hi there C`. -/
theorem readDialogueString_join_witness :
    readDialogueString exampleWorld (exampleManager [5001, 5003]) =
        some (List.intercalate [32] ((exampleManager [5001, 5003])._indexes.map fun index =>
          entryText ((exampleWorld.textEntry { filename := "z231.dlg", cacheSize := 20 }
            (localIndex index (exampleManager [5001, 5003])._dialogueId)).getD []))) ∧
      readDialogueString exampleWorld (exampleManager [5001, 5003])
        = some ("Hi there C".toList.map Char.toNat) :=
  ⟨(readDialogueString_join exampleWorld (exampleManager [5001, 5003])
      { filename := "z231.dlg", cacheSize := 20 } rfl (by decide)).1,
   by decide⟩


/-! ## Properties of `playSpeech` -/

/-- C13: the `(delayMillis, index)` pair selected at the start of `playSpeech`
is the entry of the table for the room script id (101 gives (300,16); 106,
107, 110, 114, 115, 122 give (130,10); 108, 109 give (200,10); 111, 116, 121
give (80,12); 112, 124, 128, 130 give (80,4); 132 gives (60,4)) and (0,4)
for every id without an entry, such as 999. -/
theorem speechDelay_table (scriptId : Int) :
    speechDelay scriptId = ((delayTable.lookup scriptId).getD (0, 4)) ∧
      speechDelay 101 = (300, 16) ∧ speechDelay 999 = (0, 4) := by
  refine ⟨?_, by decide, by decide⟩
  unfold speechDelay delayTable
  split_ifs with h1 h2 h3 h4 h5 h6
  · subst h1; rfl
  · rcases h2 with h | h | h | h | h | h <;> subst h <;> rfl
  · rcases h3 with h | h <;> subst h <;> rfl
  · rcases h4 with h | h | h <;> subst h <;> rfl
  · rcases h5 with h | h | h | h <;> subst h <;> rfl
  · subst h6; rfl
  · simp only [not_or] at h2 h3 h4 h5
    obtain ⟨a1, a2, a3, a4, a5, a6⟩ := h2
    obtain ⟨b1, b2⟩ := h3
    obtain ⟨c1, c2, c3⟩ := h4
    obtain ⟨d1, d2, d3, d4⟩ := h5
    simp only [List.lookup, beq_eq_false_iff_ne.2 h1, beq_eq_false_iff_ne.2 a1,
      beq_eq_false_iff_ne.2 a2, beq_eq_false_iff_ne.2 a3, beq_eq_false_iff_ne.2 a4,
      beq_eq_false_iff_ne.2 a5, beq_eq_false_iff_ne.2 a6, beq_eq_false_iff_ne.2 b1,
      beq_eq_false_iff_ne.2 b2, beq_eq_false_iff_ne.2 c1, beq_eq_false_iff_ne.2 c2,
      beq_eq_false_iff_ne.2 c3, beq_eq_false_iff_ne.2 d1, beq_eq_false_iff_ne.2 d2,
      beq_eq_false_iff_ne.2 d3, beq_eq_false_iff_ne.2 d4, beq_eq_false_iff_ne.2 h6,
      Option.getD_none]

theorem steps_playSpeechLoop (w : World) (talker : Nat) (dialogueId : Int) (milli size : Nat)
    (ids : List Nat) :
    ∀ (idx : Nat) (p1 p2 p3 : CProximity) (n s : Nat),
      steps (playSpeechLoop w talker dialogueId milli size idx ids p1 p2 p3 n s)
        = loopSteps p1._channel p2._channel p3._channel dialogueId milli idx ids := by
  induction ids with
  | nil => intro idx p1 p2 p3 n s; rfl
  | cons id rest ih =>
    intro idx p1 p2 p3 n s
    have ih2 : ∀ (idx : Nat) (p1 p2 p3 : CProximity) (n s : Nat),
        List.filterMap Effect.tagged
            (playSpeechLoop w talker dialogueId milli size idx rest p1 p2 p3 n s)
          = loopSteps p1._channel p2._channel p3._channel dialogueId milli idx rest := ih
    unfold playSpeechLoop loopSteps slotSteps
    by_cases hid : id > 100000
    · simp only [hid, if_true, List.nil_append]
      exact ih _ _ _ _ _ _
    · by_cases hm : milli = 0
      · subst hm
        by_cases hl : idx = size - 1
        · simp only [if_pos hl]
          simp [hid, steps, Effect.tagged, ih2, List.filterMap_cons]
        · simp only [if_neg hl]
          simp [hid, steps, Effect.tagged, ih2, List.filterMap_cons]
      · by_cases h0 : idx = 0 <;> by_cases hl : idx = size - 1
        · simp only [if_pos hl, if_pos h0]
          simp [hid, hm, steps, Effect.tagged, ih2, List.filterMap_cons, List.filterMap_append]
        · simp only [if_neg hl, if_pos h0]
          simp [hid, hm, steps, Effect.tagged, ih2, List.filterMap_cons, List.filterMap_append]
        · simp only [if_pos hl, if_neg h0]
          simp [hid, hm, steps, Effect.tagged, ih2, List.filterMap_cons, List.filterMap_append]
        · simp only [if_neg hl, if_neg h0]
          simp [hid, hm, steps, Effect.tagged, ih2, List.filterMap_cons, List.filterMap_append]


theorem speechP1_channel (w : World) (view : Option (Int × Int × Int)) (isParrot : Bool) :
    (speechP1 w view isParrot)._channel = if isParrot then 3 else 0 := by
  unfold speechP1
  cases view <;> rfl

theorem speechP2_channel (w : World) (scriptId : Int) (isParrot : Bool) :
    (speechP2 w scriptId isParrot)._channel = if isParrot then 5 else 1 := by
  unfold speechP2
  by_cases h : (speechDelay scriptId).1 > 0 <;> simp [h]

theorem speechP3_channel (w : World) (scriptId : Int) (isParrot : Bool) :
    (speechP3 w scriptId isParrot)._channel = if isParrot then 4 else 2 := by
  unfold speechP3
  by_cases h : (speechDelay scriptId).1 > 0 <;> simp [h]

/-- The playbacks and pauses of `playSpeech`, position by position. -/
theorem steps_playSpeech (w : World) (m : CTrueTalkManager) (talker : Nat) (scriptId : Int)
    (view : Option (Int × Int × Int)) (isParrot : Bool) :
    steps (playSpeech w m talker scriptId view isParrot)
      = loopSteps (if isParrot then 3 else 0) (if isParrot then 5 else 1)
          (if isParrot then 4 else 2) m._dialogueId (speechDelay scriptId).1 0 m._indexes := by
  have h := steps_playSpeechLoop w talker m._dialogueId (speechDelay scriptId).1
    m._indexes.length m._indexes 0 (speechP1 w view isParrot) (speechP2 w scriptId isParrot)
    (speechP3 w scriptId isParrot) 0 0
  rw [speechP1_channel, speechP2_channel, speechP3_channel] at h
  rw [← h]
  simp [playSpeech, steps, Effect.tagged]

theorem slotSteps_at (c1 c2 c3 : Int) (dialogueId : Int) (milli idx id k : Nat) :
    (slotSteps c1 c2 c3 dialogueId milli idx id).filterMap
        (fun x => if x.1 = k then some x.2 else none)
      = if idx = k then (slotSteps c1 c2 c3 dialogueId milli idx id).map Prod.snd else [] := by
  unfold slotSteps
  by_cases hk : idx = k <;> split_ifs <;> simp [hk]

theorem loopSteps_at (c1 c2 c3 : Int) (dialogueId : Int) (milli : Nat) (ids : List Nat) :
    ∀ (idx k : Nat),
      (loopSteps c1 c2 c3 dialogueId milli idx ids).filterMap
          (fun x => if x.1 = k then some x.2 else none)
        = match (if idx ≤ k then ids[k - idx]? else none) with
          | some id => (slotSteps c1 c2 c3 dialogueId milli k id).map Prod.snd
          | none => [] := by
  induction ids with
  | nil => intro idx k; simp [loopSteps]
  | cons id rest ih =>
    intro idx k
    rw [loopSteps, List.filterMap_append, slotSteps_at, ih (idx + 1) k]
    rcases Nat.lt_trichotomy idx k with h | h | h
    · have h1 : idx ≠ k := by omega
      have h2 : idx + 1 ≤ k := by omega
      have h3 : idx ≤ k := by omega
      have h4 : k - idx = (k - (idx + 1)) + 1 := by omega
      simp only [h1, h2, h3, if_true, if_false, List.nil_append]
      rw [h4, List.getElem?_cons_succ]
    · subst h
      simp
    · have h1 : idx ≠ k := by omega
      have h2 : ¬ idx + 1 ≤ k := by omega
      have h3 : ¬ idx ≤ k := by omega
      simp [h1, h2, h3]

/-- The playbacks and pauses `playSpeech` issues at position `k`. -/
theorem stepsAt_playSpeech (w : World) (m : CTrueTalkManager) (talker : Nat) (scriptId : Int)
    (view : Option (Int × Int × Int)) (isParrot : Bool) (k : Nat) :
    stepsAt k (playSpeech w m talker scriptId view isParrot)
      = match m._indexes[k]? with
        | some id =>
          (slotSteps (if isParrot then 3 else 0) (if isParrot then 5 else 1)
            (if isParrot then 4 else 2) m._dialogueId (speechDelay scriptId).1 k id).map Prod.snd
        | none => [] := by
  unfold stepsAt
  rw [steps_playSpeech, loopSteps_at]
  simp

theorem playbacks_loopSteps (c1 c2 c3 : Int) (dialogueId : Int) (milli : Nat) (ids : List Nat) :
    ∀ (idx idx2 : Nat),
      (loopSteps c1 c2 c3 dialogueId milli idx ids).filterMap
          (fun x => match x.2 with
            | Step.playback channel speechId => some (channel, speechId)
            | Step.pause _ => none)
        = (loopSteps c1 c2 c3 dialogueId milli idx2
            (ids.filter (fun id => id ≤ 100000))).filterMap
          (fun x => match x.2 with
            | Step.playback channel speechId => some (channel, speechId)
            | Step.pause _ => none) := by
  induction ids with
  | nil => intro idx idx2; rfl
  | cons id rest ih =>
    intro idx idx2
    by_cases hid : id ≤ 100000
    · have hn : ¬ id > 100000 := by omega
      rw [List.filter_cons_of_pos (by simpa using hid), loopSteps, loopSteps,
        List.filterMap_append, List.filterMap_append, ih (idx + 1) (idx2 + 1)]
      congr 1
      unfold slotSteps
      simp only [hn, if_false]
      split_ifs <;> simp
    · have hn : id > 100000 := by omega
      rw [List.filter_cons_of_neg (by simpa using hid), loopSteps, List.filterMap_append,
        ih (idx + 1) idx2]
      simp [slotSteps, hn]


/-- C14: for every index of the sequence that is not a sentinel `playSpeech`
issues exactly one playback on the direct channel (0, or 3 for the parrot),
and on each of the two ambient channels (1 and 2, or 5 and 4) exactly one
playback when the delay selected for the room script id is non-zero and
none when it is zero; with a zero delay no playback is issued on an ambient
channel at any position. -/
theorem playSpeech_playbackCount (w : World) (m : CTrueTalkManager) (talker : Nat)
    (scriptId : Int) (view : Option (Int × Int × Int)) (isParrot : Bool) (k : Nat)
    (hk : k < m._indexes.length) (hid : m._indexes[k] ≤ 100000) :
    playbackCount (playSpeech w m talker scriptId view isParrot) k (if isParrot then 3 else 0)
        = 1 ∧
      playbackCount (playSpeech w m talker scriptId view isParrot) k (if isParrot then 5 else 1)
        = (if (speechDelay scriptId).1 ≠ 0 then 1 else 0) ∧
      playbackCount (playSpeech w m talker scriptId view isParrot) k (if isParrot then 4 else 2)
        = (if (speechDelay scriptId).1 ≠ 0 then 1 else 0) ∧
      ((speechDelay scriptId).1 = 0 → ∀ j,
        playbackCount (playSpeech w m talker scriptId view isParrot) j
            (if isParrot then 5 else 1) = 0 ∧
          playbackCount (playSpeech w m talker scriptId view isParrot) j
            (if isParrot then 4 else 2) = 0) := by
  have hn : ¬ m._indexes[k] > 100000 := by omega
  have hget : m._indexes[k]? = some m._indexes[k] := List.getElem?_eq_getElem hk
  refine ⟨?_, ?_, ?_, ?_⟩
  · unfold playbackCount
    rw [stepsAt_playSpeech, hget]
    unfold slotSteps
    dsimp only
    rw [if_neg hn]
    cases isParrot <;> split_ifs <;> simp_all [Step.onChannel]
  · unfold playbackCount
    rw [stepsAt_playSpeech, hget]
    unfold slotSteps
    dsimp only
    rw [if_neg hn]
    cases isParrot <;> split_ifs <;> simp_all [Step.onChannel]
  · unfold playbackCount
    rw [stepsAt_playSpeech, hget]
    unfold slotSteps
    dsimp only
    rw [if_neg hn]
    cases isParrot <;> split_ifs <;> simp_all [Step.onChannel]
  · intro h0 j
    unfold playbackCount
    rw [stepsAt_playSpeech, h0]
    cases hj : m._indexes[j]? with
    | none => simp
    | some id =>
      unfold slotSteps
      cases isParrot <;> split_ifs <;> simp_all [Step.onChannel]

/-- Witness for C14: the indexes 5001, 200000 (a sentinel), 5003 in room 101
(delay 300), at position 2. -/
theorem playSpeech_playbackCount_witness :
    playbackCount (playSpeech exampleWorld (exampleManager [5001, 200000, 5003]) 0 101 none false)
        2 (if false then 3 else 0) = 1 ∧
      playbackCount (playSpeech exampleWorld (exampleManager [5001, 200000, 5003]) 0 101 none
        false) 2 (if false then 5 else 1) = (if (speechDelay 101).1 ≠ 0 then 1 else 0) ∧
      playbackCount (playSpeech exampleWorld (exampleManager [5001, 200000, 5003]) 0 101 none
        false) 2 (if false then 4 else 2) = (if (speechDelay 101).1 ≠ 0 then 1 else 0) :=
  ⟨(playSpeech_playbackCount exampleWorld (exampleManager [5001, 200000, 5003]) 0 101 none false
      2 (by decide) (by decide)).1,
   (playSpeech_playbackCount exampleWorld (exampleManager [5001, 200000, 5003]) 0 101 none false
      2 (by decide) (by decide)).2.1,
   (playSpeech_playbackCount exampleWorld (exampleManager [5001, 200000, 5003]) 0 101 none false
      2 (by decide) (by decide)).2.2.1⟩

/-- C16: at every position of the index sequence whose index is greater than
100000 `playSpeech` issues no playback on any channel and no pause;
`playSpeech` is a total function of its arguments, so the call completes;
and the playbacks it issues (channel and speech id, in order) are those it
issues for the sequence without the sentinel positions. -/
theorem playSpeech_skips_sentinels (w : World) (m : CTrueTalkManager) (talker : Nat)
    (scriptId : Int) (view : Option (Int × Int × Int)) (isParrot : Bool) :
    (∀ k id, m._indexes[k]? = some id → 100000 < id →
        stepsAt k (playSpeech w m talker scriptId view isParrot) = []) ∧
      playbacks (playSpeech w m talker scriptId view isParrot)
        = playbacks (playSpeech w
            { m with _indexes := m._indexes.filter (fun id => id ≤ 100000) }
            talker scriptId view isParrot) := by
  constructor
  · intro k id hk hid
    rw [stepsAt_playSpeech, hk]
    simp [slotSteps, hid]
  · unfold playbacks
    rw [steps_playSpeech, steps_playSpeech]
    exact playbacks_loopSteps _ _ _ _ _ _ 0 0

/-- Witness for C16: the indexes 5001, 200000, 5003 in room 101; position 1
holds the sentinel. -/
theorem playSpeech_skips_sentinels_witness :
    stepsAt 1 (playSpeech exampleWorld (exampleManager [5001, 200000, 5003]) 0 101 none false)
        = [] ∧
      playbacks (playSpeech exampleWorld (exampleManager [5001, 200000, 5003]) 0 101 none false)
        = [(0, 1), (2, 1), (1, 1), (0, 3), (2, 3), (1, 3)] :=
  ⟨(playSpeech_skips_sentinels exampleWorld (exampleManager [5001, 200000, 5003]) 0 101 none
      false).1 1 200000 (by decide) (by decide),
   by decide⟩

theorem slotSteps_no_pause (c1 c2 c3 : Int) (dialogueId : Int) (milli k id : Nat)
    (hk : k ≠ 0) : ∀ x ∈ slotSteps c1 c2 c3 dialogueId milli k id, x.2.isPause = false := by
  unfold slotSteps
  simp only [if_neg hk]
  split_ifs <;> simp [Step.isPause]

/-- C18, the order as the claim states it: for the single index 5001 in room
101 the steps at position 0 are playback on channel 0, pause, playback on
channel 2, pause, playback on channel 1. The second pause lies between the
two ambient playbacks; the steps are not a direct playback, a pause, the
two ambient playbacks and then a pause. -/
theorem playSpeech_second_pause_between :
    stepsAt 0 (playSpeech exampleWorld (exampleManager [5001]) 0 101 none false)
        = [Step.playback 0 1, Step.pause 300, Step.playback 2 1, Step.pause 300,
            Step.playback 1 1] ∧
      ∀ a b : Step,
        stepsAt 0 (playSpeech exampleWorld (exampleManager [5001]) 0 101 none false)
          ≠ [Step.playback 0 1, Step.pause 300, a, b, Step.pause 300] := by
  have h : stepsAt 0 (playSpeech exampleWorld (exampleManager [5001]) 0 101 none false)
      = [Step.playback 0 1, Step.pause 300, Step.playback 2 1, Step.pause 300,
          Step.playback 1 1] := by decide
  refine ⟨h, fun a b hab => ?_⟩
  rw [h] at hab
  simp at hab

/-- C18, amended: when the first index is not a sentinel and the delay `d` of
the room script id is non-zero, the steps `playSpeech` issues for the first
index are, in order: the playback on the direct channel, a pause of `d`, the
playback on the ambient channel 2 (4 for the parrot), a pause of `d`, the
playback on the ambient channel 1 (5 for the parrot); and no pause is issued
at any later position. -/
theorem playSpeech_first_index (w : World) (m : CTrueTalkManager) (talker : Nat)
    (scriptId : Int) (view : Option (Int × Int × Int)) (isParrot : Bool) (id : Nat)
    (rest : List Nat) (hidx : m._indexes = id :: rest) (hid : id ≤ 100000)
    (hd : (speechDelay scriptId).1 ≠ 0) :
    stepsAt 0 (playSpeech w m talker scriptId view isParrot)
        = [Step.playback (if isParrot then 3 else 0) (localIndex id m._dialogueId),
            Step.pause (speechDelay scriptId).1,
            Step.playback (if isParrot then 4 else 2) (localIndex id m._dialogueId),
            Step.pause (speechDelay scriptId).1,
            Step.playback (if isParrot then 5 else 1) (localIndex id m._dialogueId)] ∧
      ∀ k, 0 < k → ∀ st ∈ stepsAt k (playSpeech w m talker scriptId view isParrot),
        st.isPause = false := by
  have hn : ¬ id > 100000 := by omega
  constructor
  · rw [stepsAt_playSpeech, hidx]
    simp [slotSteps, hn, hd]
  · intro k hk st hst
    rw [stepsAt_playSpeech] at hst
    have hk0 : k ≠ 0 := by omega
    cases hj : m._indexes[k]? with
    | none => rw [hj] at hst; simp at hst
    | some id2 =>
      rw [hj] at hst
      obtain ⟨x, hx, rfl⟩ := List.mem_map.1 hst
      exact slotSteps_no_pause _ _ _ _ _ k id2 hk0 x hx

/-- Witness for C18: the indexes 5001 and 5003 in room 101. -/
theorem playSpeech_first_index_witness :
    stepsAt 0 (playSpeech exampleWorld (exampleManager [5001, 5003]) 0 101 none false)
        = [Step.playback (if false then 3 else 0)
              (localIndex 5001 (exampleManager [5001, 5003])._dialogueId),
            Step.pause (speechDelay 101).1,
            Step.playback (if false then 4 else 2)
              (localIndex 5001 (exampleManager [5001, 5003])._dialogueId),
            Step.pause (speechDelay 101).1,
            Step.playback (if false then 5 else 1)
              (localIndex 5001 (exampleManager [5001, 5003])._dialogueId)] ∧
      stepsAt 1 (playSpeech exampleWorld (exampleManager [5001, 5003]) 0 101 none false)
        = [Step.playback 0 3, Step.playback 2 3, Step.playback 1 3] :=
  ⟨(playSpeech_first_index exampleWorld (exampleManager [5001, 5003]) 0 101 none false 5001
      [5003] rfl (by decide) (by decide)).1,
   by decide⟩

/-- C20, the call as the claim states it: in the example world every pause is
reported as cut short, yet after the first pause of the call for the
indexes 5001 and 5003 in room 101 `playSpeech` issues five more playbacks. -/
theorem playSpeech_continues_after_interrupt :
    (playSpeech exampleWorld (exampleManager [5001, 5003]) 0 101 none false)[2]?
        = some (Effect.sleep 0 300 true) ∧
      playbacks ((playSpeech exampleWorld (exampleManager [5001, 5003]) 0 101 none false).drop 3)
        = [(2, 1), (1, 1), (0, 3), (2, 3), (1, 3)] := by
  decide

/-- C20, amended: `playSpeech` does not look at the outcome of a stagger pause:
whatever the pauses report, it issues the same playbacks and pauses, on the
same channels, for the same speech ids, in the same order. -/
theorem playSpeech_ignores_interrupt (w : World) (interrupted : Nat → Bool)
    (m : CTrueTalkManager) (talker : Nat) (scriptId : Int) (view : Option (Int × Int × Int))
    (isParrot : Bool) :
    steps (playSpeech { w with sleepInterrupted := interrupted } m talker scriptId view isParrot)
      = steps (playSpeech w m talker scriptId view isParrot) := by
  rw [steps_playSpeech, steps_playSpeech]


theorem geometry_playSpeechLoop (w : World) (talker : Nat) (dialogueId : Int) (milli size : Nat)
    (ids : List Nat) :
    ∀ (idx : Nat) (p1 p2 p3 : CProximity) (n s : Nat),
      ∀ p ∈ proximities (playSpeechLoop w talker dialogueId milli size idx ids p1 p2 p3 n s),
        geometry p = geometry p1 ∨
          (milli ≠ 0 ∧ (geometry p = geometry p2 ∨ geometry p = geometry p3)) := by
  induction ids with
  | nil => intro idx p1 p2 p3 n s p hp; simp [playSpeechLoop, proximities] at hp
  | cons id rest ih =>
    intro idx p1 p2 p3 n s p hp
    unfold playSpeechLoop at hp
    by_cases hid : id > 100000
    · rw [if_pos hid] at hp
      exact ih _ _ _ _ _ _ p hp
    · rw [if_neg hid] at hp
      have hg : geometry (if idx = size - 1 then
          { p1 with _endTalkerFn := true, _talker := some talker } else p1) = geometry p1 := by
        split <;> rfl
      by_cases hm : milli = 0
      · simp only [hm, if_true, proximities, List.filterMap_cons, List.mem_cons] at hp
        rcases hp with hp | hp
        · subst hp; exact Or.inl hg
        · have h := ih _ _ _ _ _ _ p (by simpa [proximities, hm] using hp)
          rcases h with h | ⟨h0, _⟩
          · exact Or.inl (h.trans hg)
          · exact absurd hm h0
      · have hp2 : p = (if idx = size - 1 then
              { p1 with _endTalkerFn := true, _talker := some talker } else p1) ∨ p = p3 ∨
            p = p2 ∨ p ∈ proximities (playSpeechLoop w talker dialogueId milli size (idx + 1) rest
              { (if idx = size - 1 then
                  { p1 with _endTalkerFn := true, _talker := some talker } else p1) with
                _priorSoundHandle := w.soundHandle n (localIndex id dialogueId)
                  (if idx = size - 1 then
                    { p1 with _endTalkerFn := true, _talker := some talker } else p1) }
              { p2 with _priorSoundHandle := w.soundHandle (n + 2) (localIndex id dialogueId) p2 }
              { p3 with _priorSoundHandle := w.soundHandle (n + 1) (localIndex id dialogueId) p3 }
              (n + 3) (if idx = 0 then (if idx = 0 then s + 1 else s) + 1
                else (if idx = 0 then s + 1 else s))) := by
          by_cases h0 : idx = 0 <;>
            simpa [hm, h0, proximities, List.filterMap_cons, List.filterMap_append] using hp
        rcases hp2 with hp | hp | hp | hp
        · subst hp; exact Or.inl hg
        · subst hp; exact Or.inr ⟨hm, Or.inr rfl⟩
        · subst hp; exact Or.inr ⟨hm, Or.inl rfl⟩
        · rcases ih _ _ _ _ _ _ p hp with h | ⟨_, h | h⟩
          · exact Or.inl (h.trans hg)
          · exact Or.inr ⟨hm, Or.inl h⟩
          · exact Or.inr ⟨hm, Or.inr h⟩

/-- C15, the parameters as the claim states them: in room 101 (index 16) the
playback on channel 1 has azimuth 135 and volume 12, the playback on
channel 2 has azimuth -135 and volume 24; no playback on channel 1 has
azimuth -135 and volume 24. -/
theorem ambient_parameters_swapped :
    (proximities (playSpeech exampleWorld (exampleManager [5001]) 0 101 none false)).map
        (fun p => (p._channel, p._azimuth, p._channelVolume))
      = [(0, 0, 100), (2, -135, 24), (1, 135, 12)] ∧
    ((1, -135, 24) : Int × Int × Int) ∉
      (proximities (playSpeech exampleWorld (exampleManager [5001]) 0 101 none false)).map
        (fun p => (p._channel, p._azimuth, p._channelVolume)) := by
  decide

/-- C15, amended: whenever the selected delay is non-zero, with `index` the
second value of the table, every playback on channel 1 (5 for the parrot)
has azimuth +135 and channel volume `(index * 3) / 4`, and every playback on
channel 2 (4 for the parrot) has azimuth -135 and channel volume
`(index * 3) / 2`, both with range 1 and elevation 0 (integer division). -/
theorem playSpeech_ambient_parameters (w : World) (m : CTrueTalkManager) (talker : Nat)
    (scriptId : Int) (view : Option (Int × Int × Int)) (isParrot : Bool)
    (hd : (speechDelay scriptId).1 ≠ 0) :
    ∀ p ∈ proximities (playSpeech w m talker scriptId view isParrot),
      (p._channel = (if isParrot then 5 else 1) →
        p._azimuth = 135 ∧ p._channelVolume = (((speechDelay scriptId).2 * 3 / 4 : Nat) : Int) ∧
          p._range = 1 ∧ p._elevation = 0) ∧
      (p._channel = (if isParrot then 4 else 2) →
        p._azimuth = -135 ∧ p._channelVolume = (((speechDelay scriptId).2 * 3 / 2 : Nat) : Int) ∧
          p._range = 1 ∧ p._elevation = 0) := by
  intro p hp
  have hpos : (speechDelay scriptId).1 > 0 := by omega
  have hp2 : p ∈ proximities (playSpeechLoop w talker m._dialogueId (speechDelay scriptId).1
      m._indexes.length 0 m._indexes (speechP1 w view isParrot) (speechP2 w scriptId isParrot)
      (speechP3 w scriptId isParrot) 0 0) := by
    simpa [playSpeech, proximities] using hp
  have h1 := speechP1_channel w view isParrot
  have h := geometry_playSpeechLoop w talker m._dialogueId (speechDelay scriptId).1
    m._indexes.length m._indexes 0 _ _ _ 0 0 p hp2
  simp only [geometry, Prod.mk.injEq] at h
  rcases h with h | ⟨_, h | h⟩
  · obtain ⟨hc, -⟩ := h
    rw [h1] at hc
    constructor <;> intro hch <;> rw [hc] at hch <;> cases isParrot <;> simp at hch
  · obtain ⟨hc, hv, ha, hr, he⟩ := h
    simp only [speechP2, hpos, if_true] at hc hv ha hr he
    constructor
    · intro _; exact ⟨ha, hv, hr, he⟩
    · intro hch; rw [hc] at hch; cases isParrot <;> simp at hch
  · obtain ⟨hc, hv, ha, hr, he⟩ := h
    simp only [speechP3, hpos, if_true] at hc hv ha hr he
    constructor
    · intro hch; rw [hc] at hch; cases isParrot <;> simp at hch
    · intro _; exact ⟨ha, hv, hr, he⟩


/-- Witness for C15: the playback on channel 1 for the index 5001 in room 101. -/
theorem playSpeech_ambient_parameters_witness :
    ((proximities (playSpeech exampleWorld (exampleManager [5001]) 0 101 none false)).getD 2
        exampleWorld.proximity)._azimuth = 135 ∧
      ((proximities (playSpeech exampleWorld (exampleManager [5001]) 0 101 none false)).getD 2
        exampleWorld.proximity)._channelVolume = (((speechDelay 101).2 * 3 / 4 : Nat) : Int) ∧
      ((proximities (playSpeech exampleWorld (exampleManager [5001]) 0 101 none false)).getD 2
        exampleWorld.proximity)._range = 1 ∧
      ((proximities (playSpeech exampleWorld (exampleManager [5001]) 0 101 none false)).getD 2
        exampleWorld.proximity)._elevation = 0 :=
  (playSpeech_ambient_parameters exampleWorld (exampleManager [5001]) 0 101 none false
    (by decide) _ (by decide)).1 (by decide)

theorem callbacks_playSpeechLoop (w : World) (talker : Nat) (dialogueId : Int) (milli size : Nat)
    (ids : List Nat) :
    ∀ (idx : Nat) (p1 p2 p3 : CProximity) (n s : Nat), idx + ids.length = size →
      p1._endTalkerFn = false → p2._endTalkerFn = false → p3._endTalkerFn = false →
      ∀ last, ids.getLast? = some last → last ≤ 100000 →
        ∃ p h, callbacks (playSpeechLoop w talker dialogueId milli size idx ids p1 p2 p3 n s)
            = [Effect.playSpeech (size - 1) (localIndex last dialogueId) p h] ∧
          p._channel = p1._channel ∧ p._talker = some talker := by
  induction ids with
  | nil => intro idx p1 p2 p3 n s _ _ _ _ last hl; simp at hl
  | cons id rest ih =>
    intro idx p1 p2 p3 n s hsize h1 h2 h3 last hlast hle
    cases rest with
    | nil =>
      have hid : id = last := by simpa using hlast
      subst hid
      have hn : ¬ id > 100000 := by omega
      have hidx : idx = size - 1 := by simp at hsize; omega
      unfold playSpeechLoop
      rw [if_neg hn]
      simp only [if_pos hidx]
      by_cases hm : milli = 0
      · refine ⟨{ p1 with _endTalkerFn := true, _talker := some talker },
          w.soundHandle n (localIndex id dialogueId)
            { p1 with _endTalkerFn := true, _talker := some talker }, ?_, rfl, rfl⟩
        simp [hm, callbacks, playSpeechLoop, ← hidx]
      · refine ⟨{ p1 with _endTalkerFn := true, _talker := some talker },
          w.soundHandle n (localIndex id dialogueId)
            { p1 with _endTalkerFn := true, _talker := some talker }, ?_, rfl, rfl⟩
        by_cases h0 : idx = 0 <;>
          simp [hm, h0, callbacks, playSpeechLoop, ← hidx, h2, h3, List.filter_cons,
            List.filter_append]
    | cons id2 rest2 =>
      have hlast2 : (id2 :: rest2).getLast? = some last := by
        simpa [List.getLast?_cons_cons] using hlast
      have hidx : idx ≠ size - 1 := by simp at hsize; omega
      have hsize2 : idx + 1 + (id2 :: rest2).length = size := by simp at hsize ⊢; omega
      unfold playSpeechLoop
      by_cases hid : id > 100000
      · rw [if_pos hid]
        exact ih (idx + 1) p1 p2 p3 n s hsize2 h1 h2 h3 last hlast2 hle
      · rw [if_neg hid]
        simp only [if_neg hidx]
        by_cases hm : milli = 0
        · obtain ⟨p, h, hc, hch, ht⟩ := ih (idx + 1)
            { p1 with _priorSoundHandle := w.soundHandle n (localIndex id dialogueId) p1 }
            p2 p3 (n + 1) s hsize2 h1 h2 h3 last hlast2 hle
          refine ⟨p, h, ?_, hch, ht⟩
          rw [← hc]
          simp [hm, callbacks, h1, List.filter_cons]
        · obtain ⟨p, h, hc, hch, ht⟩ := ih (idx + 1)
            { p1 with _priorSoundHandle := w.soundHandle n (localIndex id dialogueId) p1 }
            { p2 with _priorSoundHandle := w.soundHandle (n + 2) (localIndex id dialogueId) p2 }
            { p3 with _priorSoundHandle := w.soundHandle (n + 1) (localIndex id dialogueId) p3 }
            (n + 3) (if idx = 0 then (if idx = 0 then s + 1 else s) + 1
                else (if idx = 0 then s + 1 else s)) hsize2 h1 h2 h3 last hlast2 hle
          refine ⟨p, h, ?_, hch, ht⟩
          rw [← hc]
          by_cases h0 : idx = 0 <;>
            simp [hm, h0, callbacks, h1, h2, h3, List.filter_cons, List.filter_append]

/-- C17: when the last index of the sequence is not a sentinel (and a
default-constructed `CProximity` carries no callback), exactly one playback
of a `playSpeech` call carries the end-of-speech callback: the playback of
the last index on the direct channel, bound to the given talker; no ambient
playback and no playback of an earlier index carries it. -/
theorem playSpeech_callback (w : World) (m : CTrueTalkManager) (talker : Nat) (scriptId : Int)
    (view : Option (Int × Int × Int)) (isParrot : Bool) (front : List Nat) (last : Nat)
    (hdefault : w.proximity._endTalkerFn = false) (hidx : m._indexes = front ++ [last])
    (hlast : last ≤ 100000) :
    ∃ p h, callbacks (playSpeech w m talker scriptId view isParrot)
        = [Effect.playSpeech front.length (localIndex last m._dialogueId) p h] ∧
      p._channel = (if isParrot then 3 else 0) ∧ p._endTalkerFn = true ∧
      p._talker = some talker := by
  have hp1 : (speechP1 w view isParrot)._endTalkerFn = false := by
    unfold speechP1; cases view <;> simpa using hdefault
  have hp2 : (speechP2 w scriptId isParrot)._endTalkerFn = false := by
    unfold speechP2; by_cases h : (speechDelay scriptId).1 > 0 <;> simp [h, hdefault]
  have hp3 : (speechP3 w scriptId isParrot)._endTalkerFn = false := by
    unfold speechP3; by_cases h : (speechDelay scriptId).1 > 0 <;> simp [h, hdefault]
  obtain ⟨p, h, hc, hch, ht⟩ := callbacks_playSpeechLoop w talker m._dialogueId
    (speechDelay scriptId).1 m._indexes.length m._indexes 0 _ _ _ 0 0 (by simp) hp1 hp2 hp3
    last (by simp [hidx]) hlast
  have hlen : m._indexes.length - 1 = front.length := by simp [hidx]
  rw [hlen] at hc
  rw [speechP1_channel] at hch
  have hcb : callbacks (playSpeech w m talker scriptId view isParrot)
      = [Effect.playSpeech front.length (localIndex last m._dialogueId) p h] := by
    rw [← hc]; simp [playSpeech, callbacks, List.filter_cons]
  refine ⟨p, h, hcb, hch, ?_, ht⟩
  have hmem : Effect.playSpeech front.length (localIndex last m._dialogueId) p h
      ∈ callbacks (playSpeech w m talker scriptId view isParrot) := by rw [hcb]; simp
  simpa [callbacks] using (List.mem_filter.1 hmem).2


/-- Witness for C17: the indexes 5001 and 5003 in room 101. -/
theorem playSpeech_callback_witness :
    ∃ p h, callbacks (playSpeech exampleWorld (exampleManager [5001, 5003]) 7 101 none false)
        = [Effect.playSpeech [5001].length
            (localIndex 5003 (exampleManager [5001, 5003])._dialogueId) p h] ∧
      p._channel = (if false then 3 else 0) ∧ p._endTalkerFn = true ∧ p._talker = some 7 :=
  playSpeech_callback exampleWorld (exampleManager [5001, 5003]) 7 101 none false [5001] 5003
    rfl rfl (by decide)

theorem handlesOn_playSpeechLoop (w : World) (talker : Nat) (dialogueId : Int) (milli size : Nat)
    (ids : List Nat) :
    ∀ (idx : Nat) (p1 p2 p3 : CProximity) (n s : Nat) (x1 x2 x3 : Int),
      p1._channel ≠ p2._channel → p1._channel ≠ p3._channel → p2._channel ≠ p3._channel →
      List.Chain (fun a b : Int × Int => b.1 = a.2) (x1, p1._priorSoundHandle)
          (handlesOn p1._channel
            (playSpeechLoop w talker dialogueId milli size idx ids p1 p2 p3 n s)) ∧
        List.Chain (fun a b : Int × Int => b.1 = a.2) (x2, p2._priorSoundHandle)
          (handlesOn p2._channel
            (playSpeechLoop w talker dialogueId milli size idx ids p1 p2 p3 n s)) ∧
        List.Chain (fun a b : Int × Int => b.1 = a.2) (x3, p3._priorSoundHandle)
          (handlesOn p3._channel
            (playSpeechLoop w talker dialogueId milli size idx ids p1 p2 p3 n s)) := by
  induction ids with
  | nil =>
    intro idx p1 p2 p3 n s x1 x2 x3 _ _ _
    simp [playSpeechLoop, handlesOn]
  | cons id rest ih =>
    intro idx p1 p2 p3 n s x1 x2 x3 h12 h13 h23
    have h21 := h12.symm
    have h31 := h13.symm
    have h32 := h23.symm
    unfold playSpeechLoop
    by_cases hid : id > 100000
    · rw [if_pos hid]
      exact ih _ _ _ _ _ _ x1 x2 x3 h12 h13 h23
    · rw [if_neg hid]
      by_cases hm : milli = 0
      · by_cases hl : idx = size - 1
        · simp only [if_pos hl]
          have h := ih (idx + 1)
            { p1 with _endTalkerFn := true, _talker := some talker,
                      _priorSoundHandle := w.soundHandle n (localIndex id dialogueId)
                        { p1 with _endTalkerFn := true, _talker := some talker } }
            p2 p3 (n + 1) s p1._priorSoundHandle x2 x3 h12 h13 h23
          simpa [hm, handlesOn, List.filterMap_cons, h21, h31, h12, h13] using h
        · simp only [if_neg hl]
          have h := ih (idx + 1)
            { p1 with _priorSoundHandle := w.soundHandle n (localIndex id dialogueId) p1 }
            p2 p3 (n + 1) s p1._priorSoundHandle x2 x3 h12 h13 h23
          simpa [hm, handlesOn, List.filterMap_cons, h21, h31, h12, h13] using h
      · by_cases hl : idx = size - 1
        · simp only [if_pos hl]
          have h := ih (idx + 1)
            { p1 with _endTalkerFn := true, _talker := some talker,
                      _priorSoundHandle := w.soundHandle n (localIndex id dialogueId)
                        { p1 with _endTalkerFn := true, _talker := some talker } }
            { p2 with _priorSoundHandle := w.soundHandle (n + 2) (localIndex id dialogueId) p2 }
            { p3 with _priorSoundHandle := w.soundHandle (n + 1) (localIndex id dialogueId) p3 }
            (n + 3) (if idx = 0 then (if idx = 0 then s + 1 else s) + 1
              else (if idx = 0 then s + 1 else s))
            p1._priorSoundHandle p2._priorSoundHandle p3._priorSoundHandle h12 h13 h23
          by_cases h0 : idx = 0 <;>
            simpa [hm, h0, handlesOn, List.filterMap_cons, List.filterMap_append, h21, h31, h32,
              h12, h13, h23] using h
        · simp only [if_neg hl]
          have h := ih (idx + 1)
            { p1 with _priorSoundHandle := w.soundHandle n (localIndex id dialogueId) p1 }
            { p2 with _priorSoundHandle := w.soundHandle (n + 2) (localIndex id dialogueId) p2 }
            { p3 with _priorSoundHandle := w.soundHandle (n + 1) (localIndex id dialogueId) p3 }
            (n + 3) (if idx = 0 then (if idx = 0 then s + 1 else s) + 1
              else (if idx = 0 then s + 1 else s))
            p1._priorSoundHandle p2._priorSoundHandle p3._priorSoundHandle h12 h13 h23
          by_cases h0 : idx = 0 <;>
            simpa [hm, h0, handlesOn, List.filterMap_cons, List.filterMap_append, h21, h31, h32,
              h12, h13, h23] using h

/-- C19: on each of the three channels of a `playSpeech` call (0, 1, 2, or 3, 5,
4 for the parrot), every playback after the first on that channel is given
as its prior-sound handle the handle returned by the playback issued just
before it on the same channel: in the list of the pairs (prior handle given,
handle returned) of the playbacks on the channel, the prior handle of each
pair is the returned handle of the pair before it. -/
theorem playSpeech_chains_handles (w : World) (m : CTrueTalkManager) (talker : Nat)
    (scriptId : Int) (view : Option (Int × Int × Int)) (isParrot : Bool) :
    List.Chain' (fun a b : Int × Int => b.1 = a.2)
        (handlesOn (if isParrot then 3 else 0)
          (playSpeech w m talker scriptId view isParrot)) ∧
      List.Chain' (fun a b : Int × Int => b.1 = a.2)
        (handlesOn (if isParrot then 5 else 1)
          (playSpeech w m talker scriptId view isParrot)) ∧
      List.Chain' (fun a b : Int × Int => b.1 = a.2)
        (handlesOn (if isParrot then 4 else 2)
          (playSpeech w m talker scriptId view isParrot)) := by
  have h1 := speechP1_channel w view isParrot
  have h2 := speechP2_channel w scriptId isParrot
  have h3 := speechP3_channel w scriptId isParrot
  have h := handlesOn_playSpeechLoop w talker m._dialogueId (speechDelay scriptId).1
    m._indexes.length m._indexes 0 (speechP1 w view isParrot) (speechP2 w scriptId isParrot)
    (speechP3 w scriptId isParrot) 0 0 0 0 0
    (by rw [h1, h2]; cases isParrot <;> decide) (by rw [h1, h3]; cases isParrot <;> decide)
    (by rw [h2, h3]; cases isParrot <;> decide)
  rw [h1, h2, h3] at h
  have hs : ∀ c, handlesOn c (playSpeech w m talker scriptId view isParrot)
      = handlesOn c (playSpeechLoop w talker m._dialogueId (speechDelay scriptId).1
          m._indexes.length 0 m._indexes (speechP1 w view isParrot)
          (speechP2 w scriptId isParrot) (speechP3 w scriptId isParrot) 0 0) := by
    intro c; simp [playSpeech, handlesOn, List.filterMap_cons]
  rw [hs, hs, hs]
  exact ⟨List.Chain'.tail (l := _ :: _) h.1, List.Chain'.tail (l := _ :: _) h.2.1,
    List.Chain'.tail (l := _ :: _) h.2.2⟩


/-! ## Properties of `setDialogue` -/

theorem animDiff_eq (startFrame : Nat) : animDiff startFrame = 4294966796 := by
  unfold animDiff
  have h : ∀ v : Nat, (v % 2 ^ 32) >>> (32 + 5) = 0 := by
    intro v
    rw [Nat.shiftRight_eq_div_pow]
    apply Nat.div_eq_of_lt
    have := Nat.mod_lt v (by norm_num : 2 ^ 32 > 0)
    omega
  simp only [h]
  decide

theorem toInt32_sub (field18 : Int) (h0 : 0 < field18) (h1 : field18 < 2 ^ 31) :
    toInt32 (field18 + (4294966796 : Nat)) = field18 - 500 := by
  unfold toInt32
  omega

/-- The loop of `triggerNPC` gives the same result for every number of rounds
that is at least `_field18`: the bound on the rounds is never what ends the
loop. -/
theorem animSetLoop_fuel (npc : CTrueTalkNPC) :
    ∀ (fuel1 fuel2 : Nat) (field18 : Int) (request : Nat), 0 < field18 → field18 < 2 ^ 31 →
      field18.toNat ≤ fuel1 → field18.toNat ≤ fuel2 →
      animSetLoop npc fuel1 field18 request = animSetLoop npc fuel2 field18 request := by
  intro fuel1
  induction fuel1 with
  | zero => intro fuel2 field18 request h0 _ h1 _; omega
  | succ fuel1 ih =>
    intro fuel2 field18 request h0 hlt h1 h2
    cases fuel2 with
    | zero => omega
    | succ fuel2 =>
      unfold animSetLoop
      simp only [animDiff_eq, toInt32_sub field18 h0 hlt]
      by_cases he : (npc.animSet request).2 = 0
      · simp [he]
      · by_cases hp : field18 - 500 > 0
        · simp only [he, hp, if_true, if_false]
          rw [ih fuel2 (field18 - 500) (request + 1) hp (by omega) (by omega) (by omega)]
        · simp [he, hp]

theorem triggerNPC_talkers (m : CTrueTalkManager) (npc : CTrueTalkNPC) :
    (triggerNPC m npc).1._talkers = m._talkers := by
  unfold triggerNPC
  split
  · rfl
  · split <;> rfl

/-- C11: when the merged dialogue text is empty `setDialogue` leaves the manager
(and with it the talker list) unchanged and makes no call at all: no
`stopChannel`, no `playSpeech`, no pause, no animation message. Otherwise it
returns with a talker list that is the old list followed by exactly one new
talker, bound to the given NPC. -/
theorem setDialogue_talkers (w : World) (m : CTrueTalkManager) (npc : CTrueTalkNPC)
    (scriptId : Int) (view : Option (Int × Int × Int)) :
    (readDialogueString w m = some [] → setDialogue w m npc scriptId view = some (m, [])) ∧
      (∀ text, readDialogueString w m = some text → text ≠ [] →
        ∃ m2 fx, setDialogue w m npc scriptId view = some (m2, fx) ∧
          m2._talkers = m._talkers ++ [{ _npc := npc.name, _done := false }]) := by
  constructor
  · intro h
    simp [setDialogue, h]
  · intro text h hne
    simp only [setDialogue, h, hne, if_false]
    exact ⟨_, _, rfl, by rw [triggerNPC_talkers]; rfl⟩

/-- Witness for C11: index 5009 has no text entry, index 5001 has one. -/
theorem setDialogue_talkers_witness :
    setDialogue exampleWorld (exampleManager [5009]) exampleNPC 101 none
        = some (exampleManager [5009], []) ∧
      ∃ m2 fx, setDialogue exampleWorld (exampleManager [5001]) exampleNPC 101 none
          = some (m2, fx) ∧
        m2._talkers = (exampleManager [5001])._talkers ++ [{ _npc := exampleNPC.name, _done := false }] :=
  ⟨(setDialogue_talkers exampleWorld (exampleManager [5009]) exampleNPC 101 none).1 (by decide),
   (setDialogue_talkers exampleWorld (exampleManager [5001]) exampleNPC 101 none).2
     [72, 105, 32, 116, 104, 101, 114, 101] (by decide) (by decide)⟩

/-- C12, the code for an NPC named `Parrot`: the name does not contain the
lower-case `parrot` that `setDialogue` looks for, so channel 0 is stopped
and the playbacks go to channels 0, 2 and 1; for an NPC named `parrot`
channel 3 is stopped and the playbacks go to channels 3, 4 and 5. -/
theorem setDialogue_parrot_channels :
    exampleNPC.name = "Parrot" ∧ contains exampleNPC.name "parrot" = false ∧
      (setDialogue exampleWorld (exampleManager [5001]) exampleNPC 101 none).map
          (fun r => r.2.filterMap Effect.channel) = some [0, 0, 2, 1] ∧
      (setDialogue exampleWorld (exampleManager [5001]) { exampleNPC with name := "parrot" }
          101 none).map (fun r => r.2.filterMap Effect.channel) = some [3, 3, 4, 5] := by
  decide


/-! ## Properties of the script lookup -/

theorem getTalker_eq {σ : Type} (scripts : TTscripts σ) (reg : σ) (name : String) :
    getTalker scripts reg name =
      match matchedId talkerNames name with
      | some charId => npcScript scripts reg charId
      | none => none := by
  unfold getTalker matchedId talkerNames displayNames
  simp only [List.cons_append, List.nil_append, List.find?_cons, List.find?_nil]
  by_cases h1 : contains name "Doorbot" = true
  · simp [h1]
  by_cases h2 : contains name "DeskBot" = true
  · simp [h1, h2]
  by_cases h3 : contains name "LiftBot" = true
  · simp [h1, h2, h3]
  by_cases h4 : contains name "Parrot" = true
  · simp [h1, h2, h3, h4]
  by_cases h5 : contains name "BarBot" = true
  · simp [h1, h2, h3, h4, h5]
  by_cases h6 : contains name "ChatterBot" = true
  · simp [h1, h2, h3, h4, h5, h6]
  by_cases h7 : contains name "BellBot" = true
  · simp [h1, h2, h3, h4, h5, h6, h7]
  by_cases h8 : contains name "MaitreD" = true
  · simp [h1, h2, h3, h4, h5, h6, h7, h8]
  by_cases h9 : contains name "Succubus" = true
  · simp [h1, h2, h3, h4, h5, h6, h7, h8, h9]
  by_cases h10 : contains name "Sub" = true
  · simp [h1, h2, h3, h4, h5, h6, h7, h8, h9, h10]
  · simp [h1, h2, h3, h4, h5, h6, h7, h8, h9, h10]

/-- C21, the lookup as the claim states it: the name `Sub` contains none of the
nine display names, yet `getTalker` returns the script of character 111 for
it, not null. -/
theorem getTalker_matches_Sub :
    matchedId displayNames "Sub" = none ∧ getTalker fullScripts () "Sub" = some 111 := by
  decide

/-- C21, amended: `getTalker` returns the NPC script the registry holds for the
character id of the first entry, in the order Doorbot->104, DeskBot->103,
LiftBot->105, Parrot->107, BarBot->100, ChatterBot->102, BellBot->101,
MaitreD->112, Succubus->111, Sub->111, whose substring occurs
(case-sensitively) in the name, and null when none of these ten substrings
occurs in the name. -/
theorem getTalker_table {σ : Type} (scripts : TTscripts σ) (reg : σ) (name : String) :
    talkerNames =
        [("Doorbot", 104), ("DeskBot", 103), ("LiftBot", 105), ("Parrot", 107), ("BarBot", 100),
          ("ChatterBot", 102), ("BellBot", 101), ("MaitreD", 112), ("Succubus", 111),
          ("Sub", 111)] ∧
      getTalker scripts reg name =
        match matchedId talkerNames name with
        | some charId => npcScript scripts reg charId
        | none => none :=
  ⟨rfl, getTalker_eq scripts reg name⟩

/-- C22, the fallback as the claim states it: the name `Sub` matches none of
the nine display names, yet with a registry that holds every script
`getNpcScript` returns the script of character 111 for it, not the script
of character 101. -/
theorem getNpcScript_matches_Sub :
    matchedId displayNames "Sub" = none ∧
      getNpcScript fullScripts () { exampleNPC with name := "Sub" } = some 111 ∧
      getNpcScript fullScripts () { exampleNPC with name := "Sub" }
        ≠ npcScript fullScripts () 101 := by
  decide

/-- C22, amended: when the name of the NPC contains none of the ten substrings
`getTalker` tests (the nine display names and `Sub`), or the registry holds
no script for the character id of the first substring that occurs,
`getNpcScript` returns the registry's NPC script for id 101; for every other
NPC it returns the script `getTalker` found, which is the script of that
character id. -/
theorem getNpcScript_fallback {σ : Type} (scripts : TTscripts σ) (reg : σ)
    (npc : CTrueTalkNPC) :
    (matchedId talkerNames npc.name = none →
        getNpcScript scripts reg npc = npcScript scripts reg 101) ∧
      (∀ charId, matchedId talkerNames npc.name = some charId →
        scripts.getNpcScript reg charId = false →
        getNpcScript scripts reg npc = npcScript scripts reg 101) ∧
      (∀ charId, matchedId talkerNames npc.name = some charId →
        scripts.getNpcScript reg charId = true →
        getTalker scripts reg npc.name = some charId ∧
          getNpcScript scripts reg npc = getTalker scripts reg npc.name) := by
  refine ⟨?_, ?_, ?_⟩
  · intro h
    simp [getNpcScript, getTalker_eq, h]
  · intro charId h hreg
    simp [getNpcScript, getTalker_eq, h, npcScript, hreg]
  · intro charId h hreg
    simp [getNpcScript, getTalker_eq, h, npcScript, hreg]

/-- Witness for C22, with the example registry that holds the scripts of the
characters 101 and 107 only: a name that matches no entry, the Doorbot
(character 104, no script) and the Parrot (character 107). -/
theorem getNpcScript_fallback_witness :
    getNpcScript exampleScripts () { exampleNPC with name := "Titania" }
        = npcScript exampleScripts () 101 ∧
      getNpcScript exampleScripts () silentNPC = npcScript exampleScripts () 101 ∧
      (getTalker exampleScripts () exampleNPC.name = some 107 ∧
        getNpcScript exampleScripts () exampleNPC = getTalker exampleScripts () exampleNPC.name) :=
  ⟨(getNpcScript_fallback exampleScripts () { exampleNPC with name := "Titania" }).1 (by decide),
   (getNpcScript_fallback exampleScripts () silentNPC).2.1 104 (by decide) (by decide),
   (getNpcScript_fallback exampleScripts () exampleNPC).2.2 107 (by decide) (by decide)⟩

/-- C23: `getRoomScript(roomId)` returns the registry's room script for id 110
when `roomId` is 0 or the registry holds no room script for `roomId`, and
the script for `roomId` otherwise; the version without argument does the
same with the script id of the current room and returns the script for id
110 when there is no current room. -/
theorem getRoomScript_fallback (rooms : Int → Bool) (roomId : Int) :
    getRoomScript rooms roomId =
        (if roomId = 0 ∨ rooms roomId = false then roomScript rooms 110 else some roomId) ∧
      getCurrentRoomScript rooms (some roomId) = getRoomScript rooms roomId ∧
      getCurrentRoomScript rooms none = roomScript rooms 110 := by
  refine ⟨?_, ?_, ?_⟩
  · unfold getRoomScript roomScript
    by_cases h0 : roomId = 0
    · simp [h0]
    · by_cases hr : rooms roomId = true <;> simp [h0, hr]
  · unfold getCurrentRoomScript getRoomScript
    rfl
  · unfold getCurrentRoomScript
    rfl


/-! ## Properties of the talker list -/

theorem removeCompletedLoop_eq (talkers : List TTtalker) :
    removeCompletedLoop talkers
      = (talkers.filter (fun t => !t._done), talkers.filter (fun t => t._done)) := by
  induction talkers with
  | nil => rfl
  | cons t rest ih =>
    unfold removeCompletedLoop
    rw [ih]
    cases h : t._done <;> simp [h]

/-- C24: `removeCompleted` leaves exactly the talkers whose `_done` flag is not
set, in their original order, and deletes exactly the talkers whose flag is
set, each once (the old list is a rearrangement of the list that stays
followed by the deleted talkers); nothing else in the manager changes; on
an empty list it changes nothing and deletes nothing, and a second
`removeCompleted` right after the first changes nothing and deletes
nothing. -/
theorem removeCompleted_spec (m : CTrueTalkManager) :
    (removeCompleted m).1 = { m with _talkers := m._talkers.filter (fun t => !t._done) } ∧
      (removeCompleted m).2
        = (m._talkers.filter (fun t => t._done)).map Effect.deleteTalker ∧
      List.Perm ((removeCompleted m).1._talkers ++ m._talkers.filter (fun t => t._done))
        m._talkers ∧
      removeCompleted { m with _talkers := [] } = ({ m with _talkers := [] }, []) ∧
      removeCompleted (removeCompleted m).1 = ((removeCompleted m).1, []) := by
  have h1 : (removeCompleted m).1
      = { m with _talkers := m._talkers.filter (fun t => !t._done) } := by
    simp [removeCompleted, removeCompletedLoop_eq]
  refine ⟨h1, ?_, ?_, ?_, ?_⟩
  · simp [removeCompleted, removeCompletedLoop_eq]
  · rw [h1]
    have h := List.filter_append_perm (fun t : TTtalker => t._done) m._talkers
    exact (List.perm_append_comm.trans h)
  · rfl
  · rw [h1]
    simp [removeCompleted, removeCompletedLoop_eq, List.filter_filter]

/-- C25: after `preLoad` the talker list is empty whatever the `_done` flags of
its talkers, every talker of the old list has been deleted, and no other
field of the manager has changed (`preLoad` does not have the static fields
among the data it works on). -/
theorem preLoad_spec (m : CTrueTalkManager) :
    (preLoad m).1._talkers = [] ∧
      (preLoad m).2 = m._talkers.map Effect.deleteTalker ∧
      (preLoad m).1._currentCharId = m._currentCharId ∧
      (preLoad m).1._dialogueFile = m._dialogueFile ∧
      (preLoad m).1._dialogueId = m._dialogueId ∧
      (preLoad m).1._field18 = m._field18 ∧
      (preLoad m).1._indexes = m._indexes :=
  ⟨rfl, rfl, rfl, rfl, rfl, rfl, rfl⟩

/-! ## Properties of the queries of the script engine -/

/-- C26: with no current NPC `getStateValue` returns -1000 for every state
number and `triggerAction` returns false for every action and parameter,
and neither sends a message; with a current NPC `triggerAction` sends its
message and returns true, and `getStateValue` sends its message and returns
the value the handler of the NPC left in it, which is -1000 when the
handler left it untouched. -/
theorem current_npc_queries (npc : CTrueTalkNPC) (stateNum action param : Int) :
    getStateValue none stateNum = (-1000, []) ∧
      triggerAction none action param = (false, []) ∧
      triggerAction (some npc) action param = (true, [Effect.triggerAction action param]) ∧
      (getStateValue (some npc) stateNum).2 = [Effect.getStateValue stateNum] ∧
      (getStateValue (some npc) stateNum).1 =
        (match npc.stateValue stateNum with
          | some value => value
          | none => -1000) := by
  refine ⟨rfl, rfl, rfl, rfl, ?_⟩
  simp only [getStateValue]
  cases h : npc.stateValue stateNum <;> rfl

/-! ## Properties of `setFlags` -/

theorem setFlags_in_bounds (st : Statics) (index val : Int) (hlen : st._v11.length = 41)
    (h0 : 0 ≤ index) :
    ∃ st2, setFlags st index val = some st2 ∧ st2._v11.length = 41 ∧
      ((1 ≤ index ∧ index ≤ 6) ∨ 41 ≤ index → st2._v11 = st._v11) := by
  unfold setFlags writeArray
  split_ifs <;> simp_all
  all_goals omega

/-- C30, the code at index -1: the test `index < 41` lets the negative index
through and `_v11[-1]` is written, outside the array; an index in `0..40`
(here 0) writes inside the array, an index in `1..6` (here 5) or from 41 on
(here 41) leaves the array as it is. -/
theorem setFlags_negative_index :
    writeArray exampleOld._v11 (-1) 5 = none ∧ setFlags exampleOld (-1) 5 = none ∧
      (setFlags exampleOld 0 5).map (fun st => st._v11) = some (5 :: List.replicate 40 0) ∧
      (setFlags exampleOld 5 5).map (fun st => st._v11) = some exampleOld._v11 ∧
      (setFlags exampleOld 41 5).map (fun st => st._v11) = some exampleOld._v11 := by
  decide

/-! ## Properties of `triggerNPC` -/

/-- C27, the code for an NPC that returns the frame range 0 to 60 while
`_field18` is 1400: the range is played, and `_field18` drops to 900, that
is by 500, although `floor(60 * 1000 / 60) - 500` is 500. The frame count is
taken after `_endFrame` has been set to 0 and the product is cut to 32 bits
before the shift, so the shifted value is always 0. -/
theorem triggerNPC_frame_budget :
    (triggerNPC { exampleManager [] with _field18 := 1400 } movieNPC).2
        = [Effect.selfQueueAnimSet, Effect.getAnimSet 0, Effect.playMovie 0 60 0,
            Effect.getAnimSet 1] ∧
      (triggerNPC { exampleManager [] with _field18 := 1400 } movieNPC).1._field18 = 900 ∧
      1400 + frameBudget 0 60 = 1900 := by
  decide


/-! ## Further properties of the dialogue text and of `playSpeech` -/

theorem readDialogueLoop_texts (w : World) (file : CDialogueFile) (dialogueId : Int)
    (indexes : List Nat)
    (hsmall : ∀ index ∈ indexes,
      ((w.textEntry file (localIndex index dialogueId)).getD []).length < STRING_BUFFER_SIZE) :
    ∀ (idx : Nat) (buffer result : List Nat),
      readDialogueLoop w (some file) dialogueId idx indexes buffer result =
        some (result ++ (if idx ≠ 0 ∧ indexes ≠ [] then [32] else []) ++
          List.intercalate [32] (indexes.map fun index =>
            entryText ((w.textEntry file (localIndex index dialogueId)).getD []))) := by
  induction indexes with
  | nil => intro idx buffer result; simp [readDialogueLoop, List.intercalate]
  | cons index indexes ih =>
    intro idx buffer result
    have hs := hsmall index (by simp)
    have ih2 := ih (fun i hi => hsmall i (by simp [hi]))
    cases he : w.textEntry file (localIndex index dialogueId) with
    | none =>
      simp only [readDialogueLoop, he, ih2, ne_eq, List.map_cons, Option.getD_none,
        not_false_eq_true, and_true, true_and, Nat.add_one_ne_zero, reduceCtorEq]
      have ht : entryText [] = [] := rfl
      rw [ht]
      cases indexes with
      | nil => by_cases h0 : idx = 0 <;> simp [h0, List.intercalate]
      | cons i2 indexes =>
        rw [List.map_cons, intercalate_cons_cons]
        by_cases h0 : idx = 0 <;> simp [h0]
    | some entry =>
      rw [he] at hs
      simp only [Option.getD_some] at hs
      simp only [readDialogueLoop, he, hs, if_true, cString_stripBuffer, ih2, ne_eq,
        List.map_cons, Option.getD_some, not_false_eq_true, and_true, true_and,
        Nat.add_one_ne_zero, reduceCtorEq]
      cases indexes with
      | nil => by_cases h0 : idx = 0 <;> simp [h0, List.intercalate]
      | cons i2 indexes =>
        rw [List.map_cons, intercalate_cons_cons]
        by_cases h0 : idx = 0 <;> simp [h0]

theorem intercalate_eq_nil_iff (texts : List (List Nat)) :
    List.intercalate [32] texts = [] ↔ texts = [] ∨ texts = [[]] := by
  cases texts with
  | nil => simp [List.intercalate]
  | cons x rest =>
    cases rest with
    | nil => simp [List.intercalate]
    | cons y rest => rw [intercalate_cons_cons]; simp

theorem intercalate_replicate_nil (n : Nat) :
    List.intercalate [32] (List.replicate (n + 1) ([] : List Nat)) = List.replicate n 32 := by
  induction n with
  | zero => simp [List.intercalate]
  | succ n ih =>
    rw [List.replicate_succ, List.replicate_succ, intercalate_cons_cons,
      ← List.replicate_succ, ih]
    simp [List.replicate_succ]

theorem setDialogue_appends (w : World) (m : CTrueTalkManager) (npc : CTrueTalkNPC)
    (scriptId : Int) (view : Option (Int × Int × Int)) (text : List Nat)
    (h : readDialogueString w m = some text) (hne : text ≠ []) :
    ∃ m2 fx, setDialogue w m npc scriptId view = some (m2, fx) ∧
      m2._talkers = m._talkers ++ [{ _npc := npc.name, _done := false }] := by
  simp only [setDialogue, h, hne, if_false]
  exact ⟨_, _, rfl, by rw [triggerNPC_talkers]; rfl⟩


/-- C28: with a dialogue file open and every entry involved shorter than 2048
bytes, `readDialogueString` returns a text, and the text is empty if and
only if the index sequence is empty or consists of one index whose text
entry is missing or has an empty text; for two or more indexes whose
entries are all missing the text consists of one space less than there are
indexes, so `setDialogue` goes on and appends a talker; and whenever the
text is not empty, which is when `setDialogue` reads `_indexes[0]`, the
index sequence is not empty. -/
theorem readDialogueString_empty_iff (w : World) (m : CTrueTalkManager) (file : CDialogueFile)
    (npc : CTrueTalkNPC) (scriptId : Int) (view : Option (Int × Int × Int))
    (hfile : m._dialogueFile = some file)
    (hsmall : ∀ index ∈ m._indexes,
      ((w.textEntry file (localIndex index m._dialogueId)).getD []).length < 2048) :
    ∃ text, readDialogueString w m = some text ∧
      (text = [] ↔ (m._indexes = [] ∨ ∃ index, m._indexes = [index] ∧
        (w.textEntry file (localIndex index m._dialogueId) = none ∨
          ∃ entry, w.textEntry file (localIndex index m._dialogueId) = some entry ∧
            entryText entry = []))) ∧
      (2 ≤ m._indexes.length →
        (∀ index ∈ m._indexes, w.textEntry file (localIndex index m._dialogueId) = none) →
        text = List.replicate (m._indexes.length - 1) 32 ∧
          ∃ m2 fx, setDialogue w m npc scriptId view = some (m2, fx) ∧
            m2._talkers = m._talkers ++ [{ _npc := npc.name, _done := false }]) ∧
      (text ≠ [] → m._indexes ≠ []) := by
  have hr : readDialogueString w m = some (List.intercalate [32] (m._indexes.map fun index =>
      entryText ((w.textEntry file (localIndex index m._dialogueId)).getD []))) := by
    unfold readDialogueString
    rw [hfile, readDialogueLoop_texts w file m._dialogueId m._indexes hsmall 0 w.buffer []]
    simp
  refine ⟨_, hr, ?_, ?_, ?_⟩
  · rw [intercalate_eq_nil_iff]
    constructor
    · rintro (h | h)
      · left; simpa using h
      · right
        cases hi : m._indexes with
        | nil => rw [hi] at h; simp at h
        | cons index rest =>
          rw [hi] at h
          simp only [List.map_cons, List.cons.injEq, List.map_eq_nil_iff] at h
          obtain ⟨ht, hrest⟩ := h
          subst hrest
          refine ⟨index, rfl, ?_⟩
          cases he : w.textEntry file (localIndex index m._dialogueId) with
          | none => left; rfl
          | some entry => right; exact ⟨entry, rfl, by simpa [he] using ht⟩
    · rintro (h | ⟨index, h, he⟩)
      · left; simp [h]
      · right
        rw [h]
        rcases he with he | ⟨entry, he, ht⟩
        · simp [he, entryText, filterText]
        · simp [he, ht]
  · intro hlen hmiss
    have htexts : (m._indexes.map fun index =>
        entryText ((w.textEntry file (localIndex index m._dialogueId)).getD []))
        = List.replicate ((m._indexes.length - 1) + 1) [] := by
      rw [List.eq_replicate_iff]
      refine ⟨by simp; omega, ?_⟩
      intro t ht
      obtain ⟨index, hi, rfl⟩ := List.mem_map.1 ht
      rw [hmiss index hi]
      rfl
    have htext : List.intercalate [32] (m._indexes.map fun index =>
        entryText ((w.textEntry file (localIndex index m._dialogueId)).getD []))
        = List.replicate (m._indexes.length - 1) 32 := by
      rw [htexts, intercalate_replicate_nil]
    refine ⟨htext, ?_⟩
    apply setDialogue_appends w m npc scriptId view _ hr
    rw [htext]
    intro h
    have := congrArg List.length h
    simp at this
    omega
  · intro hne hi
    apply hne
    rw [hi]
    simp [List.intercalate]

/-- Witness for C28: the indexes 5009 and 5010 have no text entry; the text is
a single space and a talker is appended. -/
theorem readDialogueString_empty_iff_witness :
    readDialogueString exampleWorld (exampleManager [5009, 5010]) = some [32] ∧
      ∃ text, readDialogueString exampleWorld (exampleManager [5009, 5010]) = some text ∧
        text = List.replicate ((exampleManager [5009, 5010])._indexes.length - 1) 32 ∧
        ∃ m2 fx, setDialogue exampleWorld (exampleManager [5009, 5010]) exampleNPC 101 none
            = some (m2, fx) ∧
          m2._talkers = (exampleManager [5009, 5010])._talkers ++
            [{ _npc := exampleNPC.name, _done := false }] :=
  ⟨by decide,
   (readDialogueString_empty_iff exampleWorld (exampleManager [5009, 5010])
      { filename := "z231.dlg", cacheSize := 20 } exampleNPC 101 none rfl (by decide)).imp
    fun _ h => ⟨h.1, h.2.2.1 (by decide) (by decide)⟩⟩


theorem callbacks_playSpeechLoop_sentinel (w : World) (talker : Nat) (dialogueId : Int)
    (milli size : Nat) (ids : List Nat) :
    ∀ (idx : Nat) (p1 p2 p3 : CProximity) (n s : Nat), idx + ids.length = size →
      p1._endTalkerFn = false → p2._endTalkerFn = false → p3._endTalkerFn = false →
      ∀ last, ids.getLast? = some last → 100000 < last →
        callbacks (playSpeechLoop w talker dialogueId milli size idx ids p1 p2 p3 n s) = [] := by
  induction ids with
  | nil => intro idx p1 p2 p3 n s _ _ _ _ last hl; simp at hl
  | cons id rest ih =>
    intro idx p1 p2 p3 n s hsize h1 h2 h3 last hlast hgt
    cases rest with
    | nil =>
      have hid : id = last := by simpa using hlast
      subst hid
      unfold playSpeechLoop
      rw [if_pos hgt]
      simp [playSpeechLoop, callbacks]
    | cons id2 rest2 =>
      have hlast2 : (id2 :: rest2).getLast? = some last := by
        simpa [List.getLast?_cons_cons] using hlast
      have hidx : idx ≠ size - 1 := by simp at hsize; omega
      have hsize2 : idx + 1 + (id2 :: rest2).length = size := by simp at hsize ⊢; omega
      unfold playSpeechLoop
      by_cases hid : id > 100000
      · rw [if_pos hid]
        exact ih (idx + 1) p1 p2 p3 n s hsize2 h1 h2 h3 last hlast2 hgt
      · rw [if_neg hid]
        simp only [if_neg hidx]
        by_cases hm : milli = 0
        · have hc := ih (idx + 1)
            { p1 with _priorSoundHandle := w.soundHandle n (localIndex id dialogueId) p1 }
            p2 p3 (n + 1) s hsize2 h1 h2 h3 last hlast2 hgt
          refine Eq.trans ?_ hc
          simp [hm, callbacks, h1, List.filter_cons]
        · have hc := ih (idx + 1)
            { p1 with _priorSoundHandle := w.soundHandle n (localIndex id dialogueId) p1 }
            { p2 with _priorSoundHandle := w.soundHandle (n + 2) (localIndex id dialogueId) p2 }
            { p3 with _priorSoundHandle := w.soundHandle (n + 1) (localIndex id dialogueId) p3 }
            (n + 3) (if idx = 0 then (if idx = 0 then s + 1 else s) + 1
                else (if idx = 0 then s + 1 else s)) hsize2 h1 h2 h3 last hlast2 hgt
          refine Eq.trans ?_ hc
          by_cases h0 : idx = 0 <;>
            simp [hm, h0, callbacks, h1, h2, h3, List.filter_cons, List.filter_append]

/-- C29: when the last index of the sequence is a sentinel (above 100000 as an
unsigned value) and a default-constructed `CProximity` carries no callback,
no playback issued by `playSpeech` carries the end-of-speech callback,
whatever playbacks are issued for the earlier indexes; so nothing
`playSpeech` registers marks the talker done. -/
theorem playSpeech_no_callback (w : World) (m : CTrueTalkManager) (talker : Nat)
    (scriptId : Int) (view : Option (Int × Int × Int)) (isParrot : Bool) (front : List Nat)
    (last : Nat) (hdefault : w.proximity._endTalkerFn = false)
    (hidx : m._indexes = front ++ [last]) (hlast : 100000 < last) :
    callbacks (playSpeech w m talker scriptId view isParrot) = [] := by
  have hp1 : (speechP1 w view isParrot)._endTalkerFn = false := by
    unfold speechP1; cases view <;> simpa using hdefault
  have hp2 : (speechP2 w scriptId isParrot)._endTalkerFn = false := by
    unfold speechP2; by_cases h : (speechDelay scriptId).1 > 0 <;> simp [h, hdefault]
  have hp3 : (speechP3 w scriptId isParrot)._endTalkerFn = false := by
    unfold speechP3; by_cases h : (speechDelay scriptId).1 > 0 <;> simp [h, hdefault]
  have hc := callbacks_playSpeechLoop_sentinel w talker m._dialogueId
    (speechDelay scriptId).1 m._indexes.length m._indexes 0 _ _ _ 0 0 (by simp) hp1 hp2 hp3
    last (by simp [hidx]) hlast
  refine Eq.trans ?_ hc
  simp [playSpeech, callbacks, List.filter_cons]

/-- Witness for C29: the indexes 5001 and 200000 in room 101; the three
playbacks of index 5001 are issued, none with the callback. -/
theorem playSpeech_no_callback_witness :
    callbacks (playSpeech exampleWorld (exampleManager [5001, 200000]) 0 101 none false) = [] ∧
      playbacks (playSpeech exampleWorld (exampleManager [5001, 200000]) 0 101 none false)
        = [(0, 1), (2, 1), (1, 1)] :=
  ⟨playSpeech_no_callback exampleWorld (exampleManager [5001, 200000]) 0 101 none false [5001]
      200000 rfl rfl (by decide),
   by decide⟩

end Titanic
